import Mathlib

/-!
Shallow embedding of the holodeck Cython core (hardening model, coalescence
integrator, normalization solver, dynamic binary-number mapper), with
theorems checking the natural-language specification against it.

Machine doubles are modelled as exact reals; C `pow` is modelled by `Real.rpow`
for real exponents and by monoid powers for integer-literal exponents;
1-D C arrays (memoryviews) are modelled as total functions `ℤ → ℝ`, so that
out-of-bounds accesses (boundscheck is disabled in the source) read an
arbitrary, unconstrained value.
-/

noncomputable section

open Real

open scoped Classical

/-! ### Module-level constants (`cdef double` at the top of the source) -/

def MY_NWTG : ℝ := 6.6742999e-08

def MY_SPLC : ℝ := 29979245800.0

def MY_MPC : ℝ := 3.08567758e+24

def MY_MSOL : ℝ := 1.988409870698051e+33

def MY_YR : ℝ := 31557600.0

def MY_SCHW : ℝ := 1.4852320538237328e-28

def GW_DADT_SEP_CONST : ℝ := -64 * MY_NWTG ^ (3 : ℕ) / 5 / MY_SPLC ^ (5 : ℕ)

def MY_PC : ℝ := MY_MPC / 1.0e6

def MY_GYR : ℝ := MY_YR * 1.0e9

def KEPLER_CONST_FREQ : ℝ := (1 / (2 * π)) * Real.sqrt MY_NWTG

def KEPLER_CONST_SEPA : ℝ := MY_NWTG ^ ((1 : ℝ) / 3) / (2 * π) ^ ((2 : ℝ) / 3)

def FOUR_PI_SPLC_OVER_MPC : ℝ := 4 * π * MY_SPLC / MY_MPC

/-! ### Pure rate / Kepler functions -/

/-- `hard_gw`: GW-driven hardening rate (quadrupole formula). -/
def hard_gw (mtot mrat sepa : ℝ) : ℝ :=
  GW_DADT_SEP_CONST * mtot ^ (3 : ℕ) * mrat / sepa ^ (3 : ℕ) / (1 + mrat) ^ (2 : ℕ)

/-- `kepler_freq_from_sepa`: rest-frame orbital frequency from separation. -/
def kepler_freq_from_sepa (mtot sepa : ℝ) : ℝ :=
  KEPLER_CONST_FREQ * Real.sqrt mtot / sepa ^ (1.5 : ℝ)

/-- `kepler_sepa_from_freq`: separation from rest-frame orbital frequency. -/
def kepler_sepa_from_freq (mtot freq : ℝ) : ℝ :=
  KEPLER_CONST_SEPA * mtot ^ ((1 : ℝ) / 3) / freq ^ ((2 : ℝ) / 3)

/-- `_hard_func_2pwl`: phenomenological double power-law hardening term. -/
def _hard_func_2pwl (norm xx gamma_inner gamma_outer : ℝ) : ℝ :=
  -norm * (1 + xx) ^ (-gamma_outer + gamma_inner) / xx ^ (gamma_inner - 1)

/-- `hard_func_2pwl_gw`: total hardening rate, phenomenological + GW terms. -/
def hard_func_2pwl_gw (mtot mrat sepa norm rchar gamma_inner gamma_outer : ℝ) : ℝ :=
  _hard_func_2pwl norm (sepa / rchar) gamma_inner gamma_outer + hard_gw mtot mrat sepa

/-! ### `while_while` index search (fuel-based embedding of the two C loops) -/

/-- First loop of `while_while`: `while (index < size-1) and (edges[index+1] < val)`. -/
def while_up (edges : ℤ → ℝ) (size : ℕ) (val : ℝ) : ℕ → ℕ → ℕ
  | 0, index => index
  | fuel + 1, index =>
    if index < size - 1 ∧ edges ((index : ℤ) + 1) < val then
      while_up edges size val fuel (index + 1)
    else index

/-- Second loop of `while_while`: `while (index > 0) and (edges[index-1] > val)`. -/
def while_down (edges : ℤ → ℝ) (val : ℝ) : ℕ → ℕ → ℕ
  | 0, index => index
  | fuel + 1, index =>
    if 0 < index ∧ edges ((index : ℤ) - 1) > val then
      while_down edges val fuel (index - 1)
    else index

/-- `while_while(start, size, val, edges)` from the source. The fuel `size`
dominates the number of iterations either loop can make. -/
def while_while (start size : ℕ) (val : ℝ) (edges : ℤ → ℝ) : ℕ :=
  while_down edges val size (while_up edges size val size start)

/-! ### Interpolation helpers -/

/-- Modelled from the spec: `holodeck.cyutils.interp_at_index` is imported by the
source but its definition is not among the provided files.  The spec (§6)
requires point linear interpolation against the grid segment starting at the
supplied index hint: the line through `(xold[ii], yold[ii])` and
`(xold[ii+1], yold[ii+1])`, evaluated at `xnew`. -/
def interp_at_index (ii : ℕ) (xnew : ℝ) (xold yold : ℤ → ℝ) : ℝ :=
  yold ii + (yold ((ii : ℤ) + 1) - yold ii) * (xnew - xold ii) / (xold ((ii : ℤ) + 1) - xold ii)

/-- Modelled from the spec: `holodeck.cyutils._interp_between_vals` is imported by
the source but its definition is not among the provided files.  The spec (§4.4)
requires linear interpolation of `(x0, y0)`–`(x1, y1)` at `xnew`. -/
def interp_between_vals (xnew x0 x1 y0 y1 : ℝ) : ℝ :=
  y0 + (y1 - y0) * (xnew - x0) / (x1 - x0)

/-! ### Coalescence-time integrator (`_integrate_binary_evolution_2pl`) -/

/-- The `integrate_2pl_params` struct from the source. -/
structure IntegArgs where
  target_time : ℝ
  mt : ℝ
  mr : ℝ
  sepa_init : ℝ
  rchar : ℝ
  gamma_inner : ℝ
  gamma_outer : ℝ
  nsteps : ℕ

/-- Loop state of the integrator: current log-separation, left-edge separation,
left-edge hardening rate and accumulated time. -/
structure IntegState where
  sepa_log10 : ℝ
  sepa_left : ℝ
  dadt_left : ℝ
  time : ℝ

/-- One iteration of the integrator's `for ii in range(nsteps)` loop. -/
def integStep (a : IntegArgs) (norm dx : ℝ) (st : IntegState) : IntegState :=
  let sl10 := st.sepa_log10 - dx
  let sr := (10 : ℝ) ^ sl10
  let dr := hard_func_2pwl_gw a.mt a.mr sr norm a.rchar a.gamma_inner a.gamma_outer
  let dt := 2 * (sr - st.sepa_left) / (st.dadt_left + dr)
  ⟨sl10, sr, dr, st.time + dt⟩

/-- Integrator state before the loop (lines 176–191 of the source). -/
def integInit (a : IntegArgs) (norm : ℝ) : IntegState :=
  let sl10 := Real.logb 10 a.sepa_init
  let sl := (10 : ℝ) ^ sl10
  ⟨sl10, sl, hard_func_2pwl_gw a.mt a.mr sl norm a.rchar a.gamma_inner a.gamma_outer, 0⟩

/-- The log10-space step size `dx = (log10(sepa_init) - log10(risco)) / nsteps`. -/
def integDx (a : IntegArgs) : ℝ :=
  (Real.logb 10 a.sepa_init - Real.logb 10 (3 * MY_SCHW * a.mt)) / a.nsteps

/-- Integrator state after `k` loop iterations. -/
def integIter (a : IntegArgs) (norm_log10 : ℝ) (k : ℕ) : IntegState :=
  (integStep a ((10 : ℝ) ^ norm_log10) (integDx a))^[k] (integInit a ((10 : ℝ) ^ norm_log10))

/-- `_integrate_binary_evolution_2pl(norm_log10, args)`: the root-finding
residual, accumulated coalescence time minus the target time. -/
def _integrate_binary_evolution_2pl (a : IntegArgs) (norm_log10 : ℝ) : ℝ :=
  (integIter a norm_log10 a.nsteps).time - a.target_time

/-- Modelled from the spec: the solver calls `scipy.optimize.cython_optimize.brentq`
(external library code, not among the provided files) on the residual over the
bracket `log10_norm ∈ [-20, 20]`.  The spec (§4.3, §9) describes it as a
bracketed root finder whose non-convergence is silent.  It is idealized here as
returning an exact root of the residual whenever one exists in the bracket, and
an arbitrary value (0) otherwise — the silent-failure path the spec flags. -/
def find_2pl_hardening_norm (a : IntegArgs) : ℝ :=
  if h : ∃ x : ℝ, -20 ≤ x ∧ x ≤ 20 ∧ _integrate_binary_evolution_2pl a x = 0 then
    h.choose
  else 0

/-! ### Dynamic binary-number mapper (`_dynamic_binary_number_at_fobs`) -/

/-- All inputs of `_dynamic_binary_number_at_fobs`.  Array extents are carried
separately from the (total) array functions. -/
structure MapInputs where
  nf : ℕ
  nm : ℕ
  nq : ℕ
  nz : ℕ
  ninterp : ℕ
  target : ℤ → ℝ
  hard_norm : ℤ → ℤ → ℝ
  rchar : ℝ
  gi : ℝ
  go : ℝ
  dens : ℤ → ℤ → ℤ → ℝ
  mtot : ℤ → ℝ
  mrat : ℤ → ℝ
  redz : ℤ → ℝ
  gmt : ℤ → ℤ → ℤ → ℝ
  sepa_init : ℝ
  nsteps : ℕ
  rig : ℤ → ℝ
  dcomg : ℤ → ℝ
  tage : ℤ → ℝ

/-- The two 4-D output arrays.  `rf` (`redz_final`) starts as `NAN * ones`:
since NaN is not a real number, the NaN sentinel is modelled as `none` and a
stored double as `some`.  `dn` (`diff_num`) starts as `zeros`, i.e. `some 0`
everywhere; a NaN entry would likewise be `none` (never produced). -/
structure Fields where
  rf : ℤ → ℤ → ℤ → ℤ → Option ℝ
  dn : ℤ → ℤ → ℤ → ℤ → Option ℝ

/-- Pointwise array write at a 4-D index. -/
def set4 (f : ℤ → ℤ → ℤ → ℤ → Option ℝ) (i j k l : ℕ) (v : Option ℝ) :
    ℤ → ℤ → ℤ → ℤ → Option ℝ :=
  fun a b c d => if a = (i : ℤ) ∧ b = (j : ℤ) ∧ c = (k : ℤ) ∧ d = (l : ℤ) then v else f a b c d

/-- `age_universe = tage_interp_grid[ninterp - 1]`. -/
def age_universe (inp : MapInputs) : ℝ := inp.tage ((inp.ninterp : ℤ) - 1)

/-- The `while (redz_interp_grid[ii+1] > redz[rev]) and (ii < ninterp - 1)` search
in the `redz_age` precomputation (lines 298–302), fuel-based. -/
def ageSearch (rig : ℤ → ℝ) (zv : ℝ) (ninterp : ℕ) : ℕ → ℕ → ℕ
  | 0, ii => ii
  | fuel + 1, ii =>
    if rig ((ii : ℤ) + 1) > zv ∧ ii < ninterp - 1 then ageSearch rig zv ninterp fuel (ii + 1)
    else ii

/-- The `redz_age` precomputation loop: iterates `kk = 0 .. nz-1` (so `rev = nz-1-kk`
counts down), threading the shared search index `ii`.  `cnt` is the number of
remaining iterations, so the entry being written is `rev = cnt - 1`. -/
def redzAgeAux (inp : MapInputs) : ℕ → ℕ → (ℤ → ℝ) → (ℤ → ℝ)
  | 0, _, arr => arr
  | cnt + 1, ii, arr =>
    redzAgeAux inp cnt (ageSearch inp.rig (inp.redz (cnt : ℤ)) inp.ninterp inp.ninterp ii)
      (fun t =>
        if t = (cnt : ℤ) then
          interp_at_index (ageSearch inp.rig (inp.redz (cnt : ℤ)) inp.ninterp inp.ninterp ii)
            (inp.redz (cnt : ℤ)) inp.rig inp.tage
        else arr t)

/-- The `redz_age` array (age of the universe at each starting redshift).  The
`malloc`ed buffer is uninitialized; unwritten entries are modelled as 0 and are
never read for in-range indices. -/
def redzAgeArr (inp : MapInputs) : ℤ → ℝ := redzAgeAux inp inp.nz 0 (fun _ => 0)

/-- `time_left = (time_evo - dt) + gmt + redz_age[kk]` (line 352). -/
def timeLeftFn (inp : MapInputs) (i j k : ℕ) (time_evo dt : ℝ) : ℝ :=
  (time_evo - dt) + inp.gmt i j k + redzAgeArr inp k

/-- `time_right = time_evo + gmt + redz_age[kk]` (line 353). -/
def timeRightFn (inp : MapInputs) (i j k : ℕ) (time_evo : ℝ) : ℝ :=
  time_evo + inp.gmt i j k + redzAgeArr inp k

/-- Left-edge interpolation index, `while_while(interp_left, ninterp, time_left, tage)`. -/
def interpLeftIdx (inp : MapInputs) (il0 : ℕ) (tl : ℝ) : ℕ :=
  while_while il0 inp.ninterp tl inp.tage

/-- Right-edge interpolation index.  The source (line 365) searches again for
`time_left` starting from the updated left index. -/
def interpRightIdx (inp : MapInputs) (il0 : ℕ) (tl : ℝ) : ℕ :=
  while_while (interpLeftIdx inp il0 tl) inp.ninterp tl inp.tage

/-- `redz_left` (line 367). -/
def redzLeftFn (inp : MapInputs) (il0 : ℕ) (tl : ℝ) : ℝ :=
  interp_at_index (interpLeftIdx inp il0 tl) tl inp.tage inp.rig

/-- `redz_right` (line 368): interpolated at `time_right` but with the index
found for `time_left`. -/
def redzRightFn (inp : MapInputs) (il0 : ℕ) (tl tr : ℝ) : ℝ :=
  interp_at_index (interpRightIdx inp il0 tl) tr inp.tage inp.rig

/-- `fobs_orb_left = frst_orb_left / (1 + redz_left)` (line 374). -/
def fobsLeftFn (inp : MapInputs) (il0 : ℕ) (tl frst_left : ℝ) : ℝ :=
  frst_left / (1 + redzLeftFn inp il0 tl)

/-- `fobs_orb_right = frst_orb_right / (1 + redz_right)` (line 375). -/
def fobsRightFn (inp : MapInputs) (il0 : ℕ) (tl tr frst_right : ℝ) : ℝ :=
  frst_right / (1 + redzRightFn inp il0 tl tr)

/-- Crossing separation: Kepler's law inverted at rest-frame frequency
`ftemp * (1 + newz)` (lines 412–413). -/
def crossingSepa (mt ftemp newz : ℝ) : ℝ :=
  kepler_sepa_from_freq mt (ftemp * (1 + newz))

/-- Residence time `tres = -(2/3) * sepa / dadt`, with the hardening rate
re-evaluated at the crossing separation (lines 417–423). -/
def crossingTres (inp : MapInputs) (mt mr norm ftemp newz : ℝ) : ℝ :=
  -(2 / 3) * crossingSepa mt ftemp newz /
    hard_func_2pwl_gw mt mr (crossingSepa mt ftemp newz) norm inp.rchar inp.gi inp.go

/-- Comoving distance interpolated at the crossing (lines 425–428). -/
def crossingDcom (inp : MapInputs) (ftemp fobs_l fobs_r tl tr : ℝ) (il ir : ℕ) : ℝ :=
  interp_between_vals ftemp fobs_l fobs_r
    (interp_at_index il tl inp.tage inp.dcomg) (interp_at_index ir tr inp.tage inp.dcomg)

/-- `cosmo_fact = FOUR_PI_SPLC_OVER_MPC * (1 + newz) * (dcom / MPC)^2` (line 430). -/
def crossingFact (newz dcom : ℝ) : ℝ :=
  FOUR_PI_SPLC_OVER_MPC * (1 + newz) * (dcom / MY_MPC) ^ (2 : ℕ)

/-- Crossing redshift `newz` (line 402). -/
def crossNewz (ftemp fobs_l fobs_r redz_l redz_r : ℝ) : ℝ :=
  interp_between_vals ftemp fobs_l fobs_r redz_l redz_r

/-- The `if newz > 0` body (lines 408–431): write `newz` into `redz_final` and the
differential-number contribution into `diff_num`, both at `(i, j, k, ff)`. -/
def crossWrite (inp : MapInputs) (i j k ff : ℕ) (mt mr norm ftemp fobs_l fobs_r redz_l redz_r
    tl tr : ℝ) (il ir : ℕ) (flds : Fields) : Fields :=
  if crossNewz ftemp fobs_l fobs_r redz_l redz_r > 0 then
    ⟨set4 flds.rf i j k ff (some (crossNewz ftemp fobs_l fobs_r redz_l redz_r)),
     set4 flds.dn i j k ff
       (some (inp.dens i j k *
         crossingTres inp mt mr norm ftemp (crossNewz ftemp fobs_l fobs_r redz_l redz_r) *
         crossingFact (crossNewz ftemp fobs_l fobs_r redz_l redz_r)
           (crossingDcom inp ftemp fobs_l fobs_r tl tr il ir)))⟩
  else flds

/-- The inner target-frequency `while` loop (lines 395–437), fuel-based.  Its
state is the running edge index `ff`, the current edge value `ftemp`, and the
output fields. -/
def freqLoop (inp : MapInputs) (i j k : ℕ) (mt mr norm : ℝ)
    (fobs_l fobs_r redz_l redz_r tl tr : ℝ) (il ir : ℕ) :
    ℕ → ℕ → ℝ → Fields → Fields
  | 0, _, _, flds => flds
  | fuel + 1, ff, ftemp, flds =>
    if fobs_l < ftemp ∧ ftemp < fobs_r ∧ ff < inp.nf then
      freqLoop inp i j k mt mr norm fobs_l fobs_r redz_l redz_r tl tr il ir
        fuel (ff + 1) (if ff + 1 < inp.nf then inp.target ((ff : ℤ) + 1) else ftemp)
        (crossWrite inp i j k ff mt mr norm ftemp fobs_l fobs_r redz_l redz_r tl tr il ir flds)
    else flds

/-- Accumulator threaded through the redshift-bin loop: the persistent
`interp_left` and `fidx` hint indices, and the output fields. -/
structure KAcc where
  interp_left : ℕ
  fidx : ℕ
  flds : Fields

/-- The non-stalled, non-breaking body of the redshift-bin loop: update the
interpolation hints and run the inner frequency loop. -/
def processKKgo (inp : MapInputs) (i j k : ℕ) (mt mr norm frst_l frst_r tl tr : ℝ)
    (acc : KAcc) : KAcc :=
  ⟨interpLeftIdx inp acc.interp_left tl,
   while_while acc.fidx inp.nf (fobsLeftFn inp acc.interp_left tl frst_l) inp.target,
   freqLoop inp i j k mt mr norm (fobsLeftFn inp acc.interp_left tl frst_l)
     (fobsRightFn inp acc.interp_left tl tr frst_r) (redzLeftFn inp acc.interp_left tl)
     (redzRightFn inp acc.interp_left tl tr) tl tr (interpLeftIdx inp acc.interp_left tl)
     (interpRightIdx inp acc.interp_left tl) (inp.nf + 1)
     (while_while acc.fidx inp.nf (fobsLeftFn inp acc.interp_left tl frst_l) inp.target)
     (inp.target ((while_while acc.fidx inp.nf (fobsLeftFn inp acc.interp_left tl frst_l)
       inp.target : ℕ) : ℤ))
     acc.flds⟩

/-- Body of the redshift-bin loop (lines 348–437) at bin `k`.  Returns the
updated accumulator and a flag telling whether the `break` at line 383 fired. -/
def processKK (inp : MapInputs) (i j : ℕ) (mt mr norm dt time_evo frst_l frst_r : ℝ)
    (k : ℕ) (acc : KAcc) : KAcc × Bool :=
  if timeLeftFn inp i j k time_evo dt > age_universe inp then (acc, false)
  else if fobsLeftFn inp acc.interp_left (timeLeftFn inp i j k time_evo dt) frst_l >
      inp.target ((inp.nf : ℤ) - 1) then
    (⟨interpLeftIdx inp acc.interp_left (timeLeftFn inp i j k time_evo dt), acc.fidx, acc.flds⟩,
      true)
  else
    (processKKgo inp i j k mt mr norm frst_l frst_r (timeLeftFn inp i j k time_evo dt)
      (timeRightFn inp i j k time_evo) acc, false)

/-- The redshift-bin loop `for kk in range(nz-1, -1, -1)`: processes bins
`k, k-1, …, 0`, stopping early if the body signals `break`. -/
def kkLoop (inp : MapInputs) (i j : ℕ) (mt mr norm dt time_evo frst_l frst_r : ℝ) :
    ℕ → KAcc → KAcc
  | k, acc =>
    match processKK inp i j mt mr norm dt time_evo frst_l frst_r k acc with
    | (acc', true) => acc'
    | (acc', false) =>
      match k with
      | 0 => acc'
      | k' + 1 => kkLoop inp i j mt mr norm dt time_evo frst_l frst_r k' acc'

/-- Per-(mass, ratio) trajectory state across steps of the `ss` loop. -/
structure PairState where
  sepa_log10 : ℝ
  sepa_left : ℝ
  dadt_left : ℝ
  frst_left : ℝ
  time_evo : ℝ
  interp_left : ℕ
  fidx : ℕ
  flds : Fields

/-- The trapezoidal time increment `dt` of one step of the `ss` loop (line 344). -/
def stepDt (inp : MapInputs) (mt mr norm dx : ℝ) (st : PairState) : ℝ :=
  2 * ((10 : ℝ) ^ (st.sepa_log10 - dx) - st.sepa_left) /
    (st.dadt_left +
      hard_func_2pwl_gw mt mr ((10 : ℝ) ^ (st.sepa_log10 - dx)) norm inp.rchar inp.gi inp.go)

/-- The redshift-bin loop of one step of the `ss` loop, starting at `kk = nz - 1`. -/
def stepAcc (inp : MapInputs) (i j : ℕ) (mt mr norm dx : ℝ) (st : PairState) : KAcc :=
  if inp.nz = 0 then ⟨st.interp_left, st.fidx, st.flds⟩
  else
    kkLoop inp i j mt mr norm (stepDt inp mt mr norm dx st)
      (st.time_evo + stepDt inp mt mr norm dx st) st.frst_left
      (kepler_freq_from_sepa mt ((10 : ℝ) ^ (st.sepa_log10 - dx))) (inp.nz - 1)
      ⟨st.interp_left, st.fidx, st.flds⟩

/-- One iteration of the step loop `for ss in range(num_steps)` (lines 331–442). -/
def mapperStep (inp : MapInputs) (i j : ℕ) (mt mr norm dx : ℝ) (st : PairState) :
    PairState :=
  ⟨st.sepa_log10 - dx, (10 : ℝ) ^ (st.sepa_log10 - dx),
   hard_func_2pwl_gw mt mr ((10 : ℝ) ^ (st.sepa_log10 - dx)) norm inp.rchar inp.gi inp.go,
   kepler_freq_from_sepa mt ((10 : ℝ) ^ (st.sepa_log10 - dx)),
   st.time_evo + stepDt inp mt mr norm dx st,
   (stepAcc inp i j mt mr norm dx st).interp_left,
   (stepAcc inp i j mt mr norm dx st).fidx,
   (stepAcc inp i j mt mr norm dx st).flds⟩

/-- Pair-trajectory state before the step loop (lines 315–330). -/
def pairInit (inp : MapInputs) (mt mr norm : ℝ) (flds : Fields) : PairState :=
  let sl10 := Real.logb 10 inp.sepa_init
  let sl := (10 : ℝ) ^ sl10
  ⟨sl10, sl, hard_func_2pwl_gw mt mr sl norm inp.rchar inp.gi inp.go,
    kepler_freq_from_sepa mt sl, 0, 0, 0, flds⟩

/-- Pair-trajectory state after `k` steps of the step loop. -/
def pairIter (inp : MapInputs) (i j : ℕ) (flds : Fields) (k : ℕ) : PairState :=
  (mapperStep inp i j (inp.mtot i) (inp.mrat j) (inp.hard_norm i j)
      ((Real.logb 10 inp.sepa_init - Real.logb 10 (3 * MY_SCHW * inp.mtot i)) / inp.nsteps))^[k]
    (pairInit inp (inp.mtot i) (inp.mrat j) (inp.hard_norm i j) flds)

/-- The full inner computation for one (mass, ratio) pair. -/
def pairRun (inp : MapInputs) (i j : ℕ) (flds : Fields) : Fields :=
  (pairIter inp i j flds inp.nsteps).flds

/-- `_dynamic_binary_number_at_fobs`: the double loop over all (mass, ratio)
pairs, threading the output fields. -/
def _dynamic_binary_number_at_fobs (inp : MapInputs) (flds0 : Fields) : Fields :=
  (List.range inp.nm).foldl
    (fun flds i => (List.range inp.nq).foldl (fun flds' j => pairRun inp i j flds') flds)
    flds0

/-- The initial output fields built by the python wrapper
`dynamic_binary_number_at_fobs` (lines 236–237): `redz_final = NAN * np.ones(...)`
and `diff_num = np.zeros(...)`. -/
def initialFields : Fields :=
  ⟨fun _ _ _ _ => none, fun _ _ _ _ => some 0⟩

/-- `dynamic_binary_number_at_fobs`: allocate/initialize the outputs, run the pass. -/
def dynamic_binary_number_at_fobs (inp : MapInputs) : Fields :=
  _dynamic_binary_number_at_fobs inp initialFields

/-! ### Sign facts for the constants and rate functions -/

lemma MY_NWTG_pos : (0 : ℝ) < MY_NWTG := by norm_num [MY_NWTG]

lemma MY_SPLC_pos : (0 : ℝ) < MY_SPLC := by norm_num [MY_SPLC]

lemma MY_MPC_pos : (0 : ℝ) < MY_MPC := by norm_num [MY_MPC]

lemma MY_SCHW_pos : (0 : ℝ) < MY_SCHW := by norm_num [MY_SCHW]

lemma GW_DADT_SEP_CONST_neg : GW_DADT_SEP_CONST < 0 := by
  have h1 := MY_NWTG_pos
  have h2 := MY_SPLC_pos
  have h3 : (0 : ℝ) < 64 * MY_NWTG ^ (3 : ℕ) / 5 / MY_SPLC ^ (5 : ℕ) := by positivity
  have he : GW_DADT_SEP_CONST = -(64 * MY_NWTG ^ (3 : ℕ) / 5 / MY_SPLC ^ (5 : ℕ)) := by
    rw [GW_DADT_SEP_CONST]; ring
  rw [he]; linarith

lemma KEPLER_CONST_FREQ_pos : 0 < KEPLER_CONST_FREQ := by
  have h1 : 0 < Real.sqrt MY_NWTG := Real.sqrt_pos.mpr MY_NWTG_pos
  rw [KEPLER_CONST_FREQ]
  have h2 : (0 : ℝ) < 1 / (2 * π) := by positivity
  exact mul_pos h2 h1

lemma KEPLER_CONST_SEPA_pos : 0 < KEPLER_CONST_SEPA := by
  rw [KEPLER_CONST_SEPA]
  have h1 : (0 : ℝ) < MY_NWTG ^ ((1 : ℝ) / 3) := Real.rpow_pos_of_pos MY_NWTG_pos _
  have h2 : (0 : ℝ) < (2 * π) ^ ((2 : ℝ) / 3) := Real.rpow_pos_of_pos (by positivity) _
  exact div_pos h1 h2

lemma kepler_freq_pos {mtot sepa : ℝ} (hmt : 0 < mtot) (hs : 0 < sepa) :
    0 < kepler_freq_from_sepa mtot sepa := by
  rw [kepler_freq_from_sepa]
  have h1 : 0 < Real.sqrt mtot := Real.sqrt_pos.mpr hmt
  have h2 : (0 : ℝ) < sepa ^ (1.5 : ℝ) := Real.rpow_pos_of_pos hs _
  exact div_pos (mul_pos KEPLER_CONST_FREQ_pos h1) h2

lemma kepler_sepa_pos {mtot freq : ℝ} (hmt : 0 < mtot) (hf : 0 < freq) :
    0 < kepler_sepa_from_freq mtot freq := by
  rw [kepler_sepa_from_freq]
  have h1 : (0 : ℝ) < mtot ^ ((1 : ℝ) / 3) := Real.rpow_pos_of_pos hmt _
  have h2 : (0 : ℝ) < freq ^ ((2 : ℝ) / 3) := Real.rpow_pos_of_pos hf _
  exact div_pos (mul_pos KEPLER_CONST_SEPA_pos h1) h2

lemma hard_gw_neg {mtot mrat sepa : ℝ} (hmt : 0 < mtot) (hmr : 0 < mrat) (hs : 0 < sepa) :
    hard_gw mtot mrat sepa < 0 := by
  rw [hard_gw]
  have h1 : 0 < mtot ^ (3 : ℕ) := by positivity
  have h2 : 0 < sepa ^ (3 : ℕ) := by positivity
  have h3 : (0 : ℝ) < (1 + mrat) ^ (2 : ℕ) := by positivity
  have h4 := GW_DADT_SEP_CONST_neg
  have hnum : GW_DADT_SEP_CONST * mtot ^ (3 : ℕ) * mrat < 0 :=
    mul_neg_of_neg_of_pos (mul_neg_of_neg_of_pos h4 h1) hmr
  exact div_neg_of_neg_of_pos (div_neg_of_neg_of_pos hnum h2) h3

lemma hard_2pwl_neg {norm xx gi go : ℝ} (hn : 0 < norm) (hx : 0 < xx) :
    _hard_func_2pwl norm xx gi go < 0 := by
  rw [_hard_func_2pwl]
  have h1 : (0 : ℝ) < (1 + xx) ^ (-go + gi) := Real.rpow_pos_of_pos (by linarith) _
  have h2 : (0 : ℝ) < xx ^ (gi - 1) := Real.rpow_pos_of_pos hx _
  have h3 : -norm < 0 := by linarith
  exact div_neg_of_neg_of_pos (mul_neg_of_neg_of_pos h3 h1) h2

lemma hard_rate_neg {mtot mrat sepa norm rchar gi go : ℝ}
    (hmt : 0 < mtot) (hmr : 0 < mrat) (hs : 0 < sepa) (hn : 0 < norm) (hr : 0 < rchar) :
    hard_func_2pwl_gw mtot mrat sepa norm rchar gi go < 0 := by
  rw [hard_func_2pwl_gw]
  have h1 : _hard_func_2pwl norm (sepa / rchar) gi go < 0 := hard_2pwl_neg hn (div_pos hs hr)
  have h2 : hard_gw mtot mrat sepa < 0 := hard_gw_neg hmt hmr hs
  linarith

/-! ### Claim C8: decomposition and strict negativity of the total hardening rate -/

/-- C8: for every `mtot > 0`, `mrat ∈ (0, 1]`, `sepa > 0`, `norm > 0`, `rchar > 0`
and any slopes, `hard_func_2pwl_gw` equals the sum of the GW quadrupole term (a
fixed negative constant times `mtot^3 * mrat / (1+mrat)^2 / sepa^3`) and the
phenomenological term `-norm*(1+x)^(gamma_inner-gamma_outer)/x^(gamma_inner-1)`
with `x = sepa/rchar`, and this total rate is strictly negative. -/
theorem C8_rate_sum_negative (mtot mrat sepa norm rchar gamma_inner gamma_outer : ℝ)
    (hmt : 0 < mtot) (hmr : 0 < mrat) (_hmr1 : mrat ≤ 1) (hs : 0 < sepa)
    (hn : 0 < norm) (hr : 0 < rchar) :
    hard_func_2pwl_gw mtot mrat sepa norm rchar gamma_inner gamma_outer
      = GW_DADT_SEP_CONST * mtot ^ (3 : ℕ) * mrat / (1 + mrat) ^ (2 : ℕ) / sepa ^ (3 : ℕ)
        + -(norm * (1 + sepa / rchar) ^ (gamma_inner - gamma_outer)
            / (sepa / rchar) ^ (gamma_inner - 1))
      ∧ GW_DADT_SEP_CONST < 0
      ∧ hard_func_2pwl_gw mtot mrat sepa norm rchar gamma_inner gamma_outer < 0 := by
  refine ⟨?_, GW_DADT_SEP_CONST_neg, hard_rate_neg hmt hmr hs hn hr⟩
  rw [hard_func_2pwl_gw, _hard_func_2pwl, hard_gw]
  rw [show -gamma_outer + gamma_inner = gamma_inner - gamma_outer by ring]
  ring

/-- Witness for C8 at the concrete input `mtot = mrat = sepa = norm = rchar = 1`,
`gamma_inner = gamma_outer = 1`. -/
theorem C8_witness : (0 : ℝ) < 1 ∧ hard_func_2pwl_gw 1 1 1 1 1 1 1 < 0 :=
  ⟨by norm_num,
    (C8_rate_sum_negative 1 1 1 1 1 1 1 (by norm_num) (by norm_num) (by norm_num)
      (by norm_num) (by norm_num) (by norm_num)).2.2⟩

/-! ### Claim C10: postcondition of the `while_while` index search -/

lemma while_up_post (edges : ℤ → ℝ) (size : ℕ) (val : ℝ) :
    ∀ fuel i, i ≤ size - 1 → size - 1 - i ≤ fuel →
      i ≤ while_up edges size val fuel i ∧
      while_up edges size val fuel i ≤ size - 1 ∧
      (while_up edges size val fuel i = size - 1 ∨
        ¬ edges ((while_up edges size val fuel i : ℤ) + 1) < val) ∧
      (i < while_up edges size val fuel i → edges (while_up edges size val fuel i : ℤ) < val) := by
  intro fuel
  induction fuel with
  | zero =>
    intro i hi hf
    have hieq : i = size - 1 := le_antisymm hi (by omega)
    simp [while_up, hieq]
  | succ f ih =>
    intro i hi hf
    rw [while_up]
    by_cases hc : i < size - 1 ∧ edges ((i : ℤ) + 1) < val
    · rw [if_pos hc]
      have h1 : i + 1 ≤ size - 1 := hc.1
      obtain ⟨a, b, c, d⟩ := ih (i + 1) h1 (by omega)
      refine ⟨by omega, b, c, ?_⟩
      intro _
      by_cases he : i + 1 < while_up edges size val f (i + 1)
      · exact d he
      · have heq : while_up edges size val f (i + 1) = i + 1 := by omega
        rw [heq]
        have hcast : (((i + 1 : ℕ)) : ℤ) = (i : ℤ) + 1 := by push_cast; ring
        rw [hcast]
        exact hc.2
    · rw [if_neg hc]
      refine ⟨le_refl i, hi, ?_, by omega⟩
      rcases Nat.lt_or_ge i (size - 1) with h | h
      · right; intro hlt; exact hc ⟨h, hlt⟩
      · left; omega

lemma while_down_post (edges : ℤ → ℝ) (val : ℝ) :
    ∀ fuel i, i ≤ fuel →
      while_down edges val fuel i ≤ i ∧
      (while_down edges val fuel i = 0 ∨
        ¬ edges ((while_down edges val fuel i : ℤ) - 1) > val) ∧
      (while_down edges val fuel i < i → edges (while_down edges val fuel i : ℤ) > val) := by
  intro fuel
  induction fuel with
  | zero =>
    intro i hi
    have hieq : i = 0 := by omega
    simp [while_down, hieq]
  | succ f ih =>
    intro i hi
    rw [while_down]
    by_cases hc : 0 < i ∧ edges ((i : ℤ) - 1) > val
    · rw [if_pos hc]
      obtain ⟨a, b, c⟩ := ih (i - 1) (by omega)
      refine ⟨by omega, b, ?_⟩
      intro _
      by_cases he : while_down edges val f (i - 1) < i - 1
      · exact c he
      · have heq : while_down edges val f (i - 1) = i - 1 := by omega
        rw [heq]
        have hcast : (((i - 1 : ℕ)) : ℤ) = (i : ℤ) - 1 := by omega
        rw [hcast]
        exact hc.2
    · rw [if_neg hc]
      refine ⟨le_refl i, ?_, by omega⟩
      rcases Nat.eq_zero_or_pos i with h | h
      · left; exact h
      · right; intro hgt; exact hc ⟨h, hgt⟩

/-- C10: for every ascending-sorted edges array of size `≥ 1`, every start index
in `[0, size-1]` and every value, `while_while` returns an index `r ∈ [0, size-1]`
with `edges[r-1] ≤ val` when `r > 0` and `val ≤ edges[r+1]` when `r < size-1`. -/
theorem C10_while_while_bracket (edges : ℤ → ℝ) (size start : ℕ) (val : ℝ)
    (hsize : 1 ≤ size) (hstart : start ≤ size - 1)
    (hsort : ∀ a b : ℕ, a ≤ b → b ≤ size - 1 → edges (a : ℤ) ≤ edges (b : ℤ)) :
    while_while start size val edges ≤ size - 1 ∧
    (0 < while_while start size val edges →
      edges ((while_while start size val edges : ℤ) - 1) ≤ val) ∧
    (while_while start size val edges < size - 1 →
      val ≤ edges ((while_while start size val edges : ℤ) + 1)) := by
  obtain ⟨u1, u2, u3, u4⟩ := while_up_post edges size val size start hstart (by omega)
  simp only [while_while]
  set m := while_up edges size val size start with hm
  obtain ⟨d1, d2, d3⟩ := while_down_post edges val size m (by omega)
  set r := while_down edges val size m with hrr
  refine ⟨le_trans d1 u2, ?_, ?_⟩
  · intro hr0
    rcases d2 with h | h
    · omega
    · exact le_of_not_lt h
  · intro hrs
    rcases Nat.lt_or_ge r m with h | h
    · have h1 : edges (r : ℤ) > val := d3 h
      have h2 : edges (r : ℤ) ≤ edges (((r + 1 : ℕ)) : ℤ) := hsort r (r + 1) (by omega) (by omega)
      have hcast : (((r + 1 : ℕ)) : ℤ) = (r : ℤ) + 1 := by push_cast; ring
      rw [hcast] at h2
      linarith
    · have heq : r = m := le_antisymm d1 h
      rcases u3 with h3 | h3
      · omega
      · rw [heq]; exact le_of_not_lt h3

/-- Witness for C10: edges `n ↦ n` (ascending), size 3, start 2, value 1/2. -/
theorem C10_witness :
    (1 : ℕ) ≤ 3 ∧
    (while_while 2 3 (1 / 2) (fun n => (n : ℝ)) ≤ 2 ∧
      (0 < while_while 2 3 (1 / 2) (fun n => (n : ℝ)) →
        ((while_while 2 3 (1 / 2) (fun n => (n : ℝ)) : ℤ) - 1 : ℤ) ≤ (1 / 2 : ℝ)) ∧
      (while_while 2 3 (1 / 2) (fun n => (n : ℝ)) < 2 →
        (1 / 2 : ℝ) ≤ ((while_while 2 3 (1 / 2) (fun n => (n : ℝ)) : ℤ) + 1 : ℤ))) :=
  ⟨by norm_num,
    C10_while_while_bracket (fun n => (n : ℝ)) 3 2 (1 / 2) (by norm_num) (by norm_num)
      (fun a b hab _ => by simp only []; exact_mod_cast hab)⟩

/-! ### Claim C9: the discretized separation trajectory -/

/-- ISCO separation, `3 * MY_SCHW * mtot` (three combined Schwarzschild radii). -/
def risco (mt : ℝ) : ℝ := 3 * MY_SCHW * mt

/-- Log-separation after `k` steps of size `dx` from `sepa_init`. -/
def trajSepaLog10 (sepa_init dx : ℝ) (k : ℕ) : ℝ := Real.logb 10 sepa_init - k * dx

/-- Separation after `k` steps: both the integrator and the Mapper compute
`pow(10, sepa_log10)` with `sepa_log10` decremented `k` times by `dx`. -/
def trajSepa (sepa_init dx : ℝ) (k : ℕ) : ℝ := (10 : ℝ) ^ trajSepaLog10 sepa_init dx k

lemma integIter_sepa (a : IntegArgs) (x : ℝ) (k : ℕ) :
    (integIter a x k).sepa_log10 = trajSepaLog10 a.sepa_init (integDx a) k ∧
    (integIter a x k).sepa_left = trajSepa a.sepa_init (integDx a) k := by
  induction k with
  | zero =>
    simp [integIter, integInit, trajSepaLog10, trajSepa]
  | succ n ih =>
    have hs : integIter a x (n + 1) = integStep a ((10 : ℝ) ^ x) (integDx a) (integIter a x n) := by
      rw [integIter, Function.iterate_succ_apply', integIter]
    constructor
    · rw [hs]
      show (integIter a x n).sepa_log10 - integDx a = _
      rw [ih.1]
      simp only [trajSepaLog10]
      push_cast; ring
    · rw [hs]
      show (10 : ℝ) ^ ((integIter a x n).sepa_log10 - integDx a) = _
      rw [ih.1]
      simp only [trajSepaLog10, trajSepa]
      congr 1
      push_cast; ring

lemma pairIter_sepa (inp : MapInputs) (i j : ℕ) (flds : Fields) (k : ℕ) :
    (pairIter inp i j flds k).sepa_log10 =
      trajSepaLog10 inp.sepa_init
        ((Real.logb 10 inp.sepa_init - Real.logb 10 (3 * MY_SCHW * inp.mtot i)) / inp.nsteps) k ∧
    (pairIter inp i j flds k).sepa_left =
      trajSepa inp.sepa_init
        ((Real.logb 10 inp.sepa_init - Real.logb 10 (3 * MY_SCHW * inp.mtot i)) / inp.nsteps) k := by
  induction k with
  | zero =>
    simp [pairIter, pairInit, trajSepaLog10, trajSepa]
  | succ n ih =>
    have hs : pairIter inp i j flds (n + 1) =
        mapperStep inp i j (inp.mtot i) (inp.mrat j) (inp.hard_norm i j)
          ((Real.logb 10 inp.sepa_init - Real.logb 10 (3 * MY_SCHW * inp.mtot i)) / inp.nsteps)
          (pairIter inp i j flds n) := by
      rw [pairIter, Function.iterate_succ_apply', pairIter]
    constructor
    · rw [hs]
      show (pairIter inp i j flds n).sepa_log10 - _ = _
      rw [ih.1]
      simp only [trajSepaLog10]
      push_cast; ring
    · rw [hs]
      show (10 : ℝ) ^ ((pairIter inp i j flds n).sepa_log10 - _) = _
      rw [ih.1]
      simp only [trajSepaLog10, trajSepa]
      congr 1
      push_cast; ring

lemma kepler_freq_lt {mt s' s : ℝ} (hmt : 0 < mt) (h0 : 0 < s') (h : s' < s) :
    kepler_freq_from_sepa mt s < kepler_freq_from_sepa mt s' := by
  rw [kepler_freq_from_sepa, kepler_freq_from_sepa]
  have hnum : 0 < KEPLER_CONST_FREQ * Real.sqrt mt :=
    mul_pos KEPLER_CONST_FREQ_pos (Real.sqrt_pos.mpr hmt)
  have hp : (0 : ℝ) < s' ^ (1.5 : ℝ) := Real.rpow_pos_of_pos h0 _
  have hps : s' ^ (1.5 : ℝ) < s ^ (1.5 : ℝ) := Real.rpow_lt_rpow (le_of_lt h0) h (by norm_num)
  exact div_lt_div_of_pos_left hnum hp hps

lemma risco_pos {mt : ℝ} (hmt : 0 < mt) : 0 < risco mt := by
  rw [risco]
  have := MY_SCHW_pos
  positivity

lemma trajSepa_pos {s0 dx : ℝ} (k : ℕ) : 0 < trajSepa s0 dx k :=
  Real.rpow_pos_of_pos (by norm_num) _

lemma trajSepa_strict_anti {s0 dx : ℝ} (hdx : 0 < dx) (k : ℕ) :
    trajSepa s0 dx (k + 1) < trajSepa s0 dx k := by
  rw [trajSepa, trajSepa]
  rw [Real.rpow_lt_rpow_left_iff (by norm_num : (1 : ℝ) < 10)]
  rw [trajSepaLog10, trajSepaLog10]
  push_cast
  nlinarith

/-- C9: for every `mtot > 0` with `sepa_init` strictly above ISCO and `nsteps ≥ 1`,
the separation sequence shared by the integrator and the Mapper (log10 stepping by
`dx = (log10 sepa_init - log10 risco)/nsteps`) is strictly decreasing from
`sepa_init` down to ISCO, the Kepler rest-frame frequency along it is strictly
increasing, and both loop embeddings indeed visit exactly these separations. -/
theorem C9_trajectory_monotone (inp : MapInputs) (a : IntegArgs) (i j : ℕ)
    (hmt : inp.mtot i = a.mt) (hsi : inp.sepa_init = a.sepa_init) (hns : inp.nsteps = a.nsteps)
    (h1 : 0 < a.mt) (h2 : risco a.mt < a.sepa_init) (h3 : 1 ≤ a.nsteps)
    (x : ℝ) (flds : Fields) :
    (∀ k, trajSepa a.sepa_init (integDx a) (k + 1) < trajSepa a.sepa_init (integDx a) k) ∧
    trajSepa a.sepa_init (integDx a) 0 = a.sepa_init ∧
    trajSepa a.sepa_init (integDx a) a.nsteps = risco a.mt ∧
    (∀ k, kepler_freq_from_sepa a.mt (trajSepa a.sepa_init (integDx a) k)
        < kepler_freq_from_sepa a.mt (trajSepa a.sepa_init (integDx a) (k + 1))) ∧
    (∀ k, (integIter a x k).sepa_left = trajSepa a.sepa_init (integDx a) k) ∧
    (∀ k, (pairIter inp i j flds k).sepa_left = trajSepa a.sepa_init (integDx a) k) := by
  have hrp : 0 < risco a.mt := risco_pos h1
  have hsp : 0 < a.sepa_init := lt_trans hrp h2
  have hlog : Real.logb 10 (risco a.mt) < Real.logb 10 a.sepa_init :=
    Real.logb_lt_logb (by norm_num) hrp h2
  have hn0 : (0 : ℝ) < (a.nsteps : ℝ) := by exact_mod_cast h3
  have hdx : 0 < integDx a := by
    rw [integDx]
    have : Real.logb 10 (3 * MY_SCHW * a.mt) = Real.logb 10 (risco a.mt) := by rw [risco]
    rw [this]
    exact div_pos (sub_pos.mpr hlog) hn0
  refine ⟨fun k => trajSepa_strict_anti hdx k, ?_, ?_, ?_, ?_, ?_⟩
  · rw [trajSepa, trajSepaLog10]
    norm_num
    exact Real.rpow_logb (by norm_num) (by norm_num) hsp
  · rw [trajSepa, trajSepaLog10]
    have hexp : Real.logb 10 a.sepa_init - (a.nsteps : ℝ) * integDx a
        = Real.logb 10 (risco a.mt) := by
      rw [integDx, risco]
      have hne : (a.nsteps : ℝ) ≠ 0 := ne_of_gt hn0
      field_simp
    rw [hexp]
    exact Real.rpow_logb (by norm_num) (by norm_num) hrp
  · intro k
    exact kepler_freq_lt h1 (trajSepa_pos (k + 1)) (trajSepa_strict_anti hdx k)
  · intro k
    exact (integIter_sepa a x k).2
  · intro k
    have := (pairIter_sepa inp i j flds k).2
    rw [this, hmt, hsi, hns, ← integDx]

/-- Witness inputs shared by several concrete instantiations: a total mass whose
ISCO separation is exactly 1 cm. -/
def c_mt : ℝ := 1 / (3 * MY_SCHW)

lemma c_mt_pos : 0 < c_mt := by
  rw [c_mt]
  have := MY_SCHW_pos
  positivity

lemma three_schw_c_mt : 3 * MY_SCHW * c_mt = 1 := by
  rw [c_mt]
  have := MY_SCHW_pos
  field_simp

lemma risco_c_mt : risco c_mt = 1 := by rw [risco]; exact three_schw_c_mt

/-- Minimal mapper inputs used by the C9 witness. -/
def c9inp : MapInputs :=
  ⟨1, 1, 1, 1, 2, fun _ => 0, fun _ _ => 1, 1, 1, 1, fun _ _ _ => 0, fun _ => c_mt,
    fun _ => 1, fun _ => 0, fun _ _ _ => 0, 10, 1, fun _ => 0, fun _ => 0, fun _ => 0⟩

/-- Integrator arguments used by the C9 witness and by the C1 analysis. -/
def c1args (T : ℝ) : IntegArgs := ⟨T, c_mt, 1, 10, 1, 1, 1, 1⟩

/-- Witness for C9 at `mtot = 1/(3 MY_SCHW)` (ISCO = 1 cm), `sepa_init = 10`,
`nsteps = 1`. -/
theorem C9_witness :
    (0 < (c1args 0).mt ∧ risco (c1args 0).mt < (c1args 0).sepa_init ∧ 1 ≤ (c1args 0).nsteps) ∧
    (trajSepa (c1args 0).sepa_init (integDx (c1args 0)) 0 = (c1args 0).sepa_init ∧
      trajSepa (c1args 0).sepa_init (integDx (c1args 0)) (c1args 0).nsteps =
        risco (c1args 0).mt) := by
  have hmt : (c1args 0).mt = c_mt := rfl
  have h1 : 0 < (c1args 0).mt := by rw [hmt]; exact c_mt_pos
  have h2 : risco (c1args 0).mt < (c1args 0).sepa_init := by
    rw [hmt, risco_c_mt]; show (1 : ℝ) < 10; norm_num
  have h3 : 1 ≤ (c1args 0).nsteps := le_refl 1
  have := C9_trajectory_monotone c9inp (c1args 0) 0 0 rfl rfl rfl h1 h2 h3 0 initialFields
  exact ⟨⟨h1, h2, h3⟩, this.2.1, this.2.2.1⟩

/-! ### Claim C1: the normalization solver -/

lemma integStep_time (a : IntegArgs) (norm dx : ℝ) (st : IntegState) :
    (integStep a norm dx st).time = st.time +
      2 * ((10 : ℝ) ^ (st.sepa_log10 - dx) - st.sepa_left) /
        (st.dadt_left + hard_func_2pwl_gw a.mt a.mr ((10 : ℝ) ^ (st.sepa_log10 - dx)) norm
          a.rchar a.gamma_inner a.gamma_outer) := rfl

lemma integInit_spec (a : IntegArgs) (norm : ℝ) :
    integInit a norm = ⟨Real.logb 10 a.sepa_init, (10 : ℝ) ^ (Real.logb 10 a.sepa_init),
      hard_func_2pwl_gw a.mt a.mr ((10 : ℝ) ^ (Real.logb 10 a.sepa_init)) norm a.rchar
        a.gamma_inner a.gamma_outer, 0⟩ := rfl

lemma hard_2pwl_gamma_one (norm x : ℝ) : _hard_func_2pwl norm x 1 1 = -norm := by
  rw [_hard_func_2pwl]
  rw [show (-1 + 1 : ℝ) = 0 by norm_num, show (1 - 1 : ℝ) = 0 by norm_num]
  rw [Real.rpow_zero, Real.rpow_zero]
  ring

lemma hard_eval_one (mt mr s norm : ℝ) :
    hard_func_2pwl_gw mt mr s norm 1 1 1 =
      -norm + GW_DADT_SEP_CONST * mt ^ (3 : ℕ) * mr / s ^ (3 : ℕ) / (1 + mr) ^ (2 : ℕ) := by
  rw [hard_func_2pwl_gw, hard_gw, div_one, hard_2pwl_gamma_one]

/-- The GW part of the hardening rate at `mtot = c_mt`, `mrat = 1`, `sepa = 1`. -/
def cG : ℝ := GW_DADT_SEP_CONST * c_mt ^ (3 : ℕ) / 4

lemma cG_lt : cG < -36 := by
  norm_num [cG, GW_DADT_SEP_CONST, c_mt, MY_NWTG, MY_SPLC, MY_SCHW]

lemma c1_dx : integDx (c1args 0) = 1 := by
  rw [integDx]
  show (Real.logb 10 (10 : ℝ) - Real.logb 10 (3 * MY_SCHW * c_mt)) / ((1 : ℕ) : ℝ) = 1
  rw [three_schw_c_mt, Real.logb_self_eq_one (by norm_num : (1 : ℝ) < 10), Real.logb_one]
  norm_num

lemma c1_dx' (T : ℝ) : integDx (c1args T) = 1 := c1_dx

/-- Closed form of the residual for the `c1args` family: one step from 10 cm to
1 cm, with hardening rate `-norm + cG / s³`. -/
lemma c1_residual (T x : ℝ) :
    _integrate_binary_evolution_2pl (c1args T) x
      = 2 * ((1 : ℝ) - 10) / ((-(10 : ℝ) ^ x + cG / 1000) + (-(10 : ℝ) ^ x + cG)) - T := by
  rw [_integrate_binary_evolution_2pl]
  rw [show (c1args T).nsteps = 1 from rfl]
  rw [integIter, Function.iterate_one, integStep_time, integInit_spec]
  have hsi : (c1args T).sepa_init = 10 := rfl
  have hmt : (c1args T).mt = c_mt := rfl
  have hmr : (c1args T).mr = 1 := rfl
  have hrc : (c1args T).rchar = 1 := rfl
  have hgi : (c1args T).gamma_inner = 1 := rfl
  have hgo : (c1args T).gamma_outer = 1 := rfl
  have htt : (c1args T).target_time = T := rfl
  simp only [hsi, hmt, hmr, hrc, hgi, hgo, htt, c1_dx']
  rw [Real.logb_self_eq_one (by norm_num : (1 : ℝ) < 10), Real.rpow_one]
  rw [show (1 : ℝ) - 1 = 0 by norm_num, Real.rpow_zero]
  rw [hard_eval_one, hard_eval_one, cG]
  ring

lemma c1_time_bound (x : ℝ) :
    0 < 2 * ((1 : ℝ) - 10) / ((-(10 : ℝ) ^ x + cG / 1000) + (-(10 : ℝ) ^ x + cG)) ∧
    2 * ((1 : ℝ) - 10) / ((-(10 : ℝ) ^ x + cG / 1000) + (-(10 : ℝ) ^ x + cG)) < 1 / 2 := by
  have hn : (0 : ℝ) < (10 : ℝ) ^ x := Real.rpow_pos_of_pos (by norm_num) x
  have hc := cG_lt
  have hD : (-(10 : ℝ) ^ x + cG / 1000) + (-(10 : ℝ) ^ x + cG) < -36 := by linarith
  have hDneg : (-(10 : ℝ) ^ x + cG / 1000) + (-(10 : ℝ) ^ x + cG) < 0 := by linarith
  constructor
  · exact div_pos_iff.mpr (Or.inr ⟨by norm_num, hDneg⟩)
  · rw [div_lt_iff_of_neg hDneg]
    linarith

/-- C1 counterexample: for the valid input `mtot = 1/(3 MY_SCHW) > 0`, `mrat = 1`,
`T = 1 s`, `sepa_init = 10 > risco = 1`, `rchar = 1`, `nsteps = 1`, the coalescence
time computed by the integrator is below 1/2 s for *every* normalization, so no
root exists in (or out of) the bracket and re-running the integrator at the
solver's returned normalization misses the target time by more than 1/2 s —
vastly more than the configured root tolerances (xtol 1e-3, rtol 1e-5). -/
theorem C1_counterexample :
    0 < (c1args 1).mt ∧ 0 < (c1args 1).mr ∧ (c1args 1).mr ≤ 1 ∧ 0 < (c1args 1).target_time ∧
    risco (c1args 1).mt < (c1args 1).sepa_init ∧ 0 < (c1args 1).rchar ∧
    1 ≤ (c1args 1).nsteps ∧
    1 / 2 < |_integrate_binary_evolution_2pl (c1args 1) (find_2pl_hardening_norm (c1args 1))| := by
  refine ⟨c_mt_pos, by show (0 : ℝ) < 1; norm_num, le_refl 1, by show (0 : ℝ) < 1; norm_num,
    ?_, by show (0 : ℝ) < 1; norm_num, le_refl 1, ?_⟩
  · show risco c_mt < 10
    rw [risco_c_mt]; norm_num
  · have hno : ¬ ∃ x : ℝ, -20 ≤ x ∧ x ≤ 20 ∧ _integrate_binary_evolution_2pl (c1args 1) x = 0 := by
      rintro ⟨x, -, -, hx⟩
      rw [c1_residual] at hx
      have h2 := (c1_time_bound x).2
      linarith
    rw [find_2pl_hardening_norm, dif_neg hno, c1_residual]
    have h1 := (c1_time_bound 0).1
    have h2 := (c1_time_bound 0).2
    rw [abs_of_neg (by linarith)]
    linarith

/-- C1 amended: whenever some log10-normalization in the bracket `[-20, 20]` makes
the integrator's coalescence time equal the target exactly, the solver (idealized
per the spec's own description: brentq's silent iteration-cap behavior abstracted
as exact root selection) returns such a value, so re-running the integrator with
`norm = 10^log10_norm` reproduces the target time.  For targets exceeding the
maximum achievable coalescence time no normalization can reproduce the target at
all (see the counterexample), which the spec flags as silent non-convergence. -/
theorem C1_amended_solver (a : IntegArgs)
    (h : ∃ x : ℝ, -20 ≤ x ∧ x ≤ 20 ∧ _integrate_binary_evolution_2pl a x = 0) :
    -20 ≤ find_2pl_hardening_norm a ∧ find_2pl_hardening_norm a ≤ 20 ∧
    _integrate_binary_evolution_2pl a (find_2pl_hardening_norm a) = 0 := by
  rw [find_2pl_hardening_norm, dif_pos h]
  exact h.choose_spec

/-- An achievable target time for the `c1args` family: the coalescence time at
normalization `10^0 = 1`. -/
def c1_target : ℝ := 2 * ((1 : ℝ) - 10) / ((-1 + cG / 1000) + (-1 + cG))

/-- Witness for the amended C1: at the achievable target `c1_target` the residual
has the root `x = 0` in the bracket, and the solver's output reproduces the
target exactly. -/
theorem C1_witness :
    (∃ x : ℝ, -20 ≤ x ∧ x ≤ 20 ∧ _integrate_binary_evolution_2pl (c1args c1_target) x = 0) ∧
    _integrate_binary_evolution_2pl (c1args c1_target)
      (find_2pl_hardening_norm (c1args c1_target)) = 0 := by
  have hroot : _integrate_binary_evolution_2pl (c1args c1_target) 0 = 0 := by
    rw [c1_residual, Real.rpow_zero, c1_target]
    ring
  have hex : ∃ x : ℝ, -20 ≤ x ∧ x ≤ 20 ∧ _integrate_binary_evolution_2pl (c1args c1_target) x = 0 :=
    ⟨0, by norm_num, by norm_num, hroot⟩
  exact ⟨hex, (C1_amended_solver (c1args c1_target) hex).2.2⟩

/-! ### Loop equation lemmas for the Mapper -/

lemma freqLoop_stop (inp : MapInputs) (i j k : ℕ) (mt mr norm fl fr zl zr tl tr : ℝ)
    (il ir : ℕ) (fuel ff : ℕ) (ftemp : ℝ) (flds : Fields)
    (h : ¬(fl < ftemp ∧ ftemp < fr ∧ ff < inp.nf)) :
    freqLoop inp i j k mt mr norm fl fr zl zr tl tr il ir (fuel + 1) ff ftemp flds = flds := by
  rw [freqLoop, if_neg h]

lemma freqLoop_step (inp : MapInputs) (i j k : ℕ) (mt mr norm fl fr zl zr tl tr : ℝ)
    (il ir : ℕ) (fuel ff : ℕ) (ftemp : ℝ) (flds : Fields)
    (h : fl < ftemp ∧ ftemp < fr ∧ ff < inp.nf) :
    freqLoop inp i j k mt mr norm fl fr zl zr tl tr il ir (fuel + 1) ff ftemp flds =
      freqLoop inp i j k mt mr norm fl fr zl zr tl tr il ir fuel (ff + 1)
        (if ff + 1 < inp.nf then inp.target ((ff : ℤ) + 1) else ftemp)
        (crossWrite inp i j k ff mt mr norm ftemp fl fr zl zr tl tr il ir flds) := by
  rw [freqLoop, if_pos h]

lemma processKK_stall (inp : MapInputs) (i j : ℕ) (mt mr norm dt te fl fr : ℝ)
    (k : ℕ) (acc : KAcc) (h : timeLeftFn inp i j k te dt > age_universe inp) :
    processKK inp i j mt mr norm dt te fl fr k acc = (acc, false) := by
  rw [processKK, if_pos h]

lemma processKK_break (inp : MapInputs) (i j : ℕ) (mt mr norm dt te fl fr : ℝ)
    (k : ℕ) (acc : KAcc)
    (h1 : ¬ timeLeftFn inp i j k te dt > age_universe inp)
    (h2 : fobsLeftFn inp acc.interp_left (timeLeftFn inp i j k te dt) fl >
      inp.target ((inp.nf : ℤ) - 1)) :
    processKK inp i j mt mr norm dt te fl fr k acc =
      (⟨interpLeftIdx inp acc.interp_left (timeLeftFn inp i j k te dt), acc.fidx, acc.flds⟩,
        true) := by
  rw [processKK, if_neg h1, if_pos h2]

lemma processKK_go (inp : MapInputs) (i j : ℕ) (mt mr norm dt te fl fr : ℝ)
    (k : ℕ) (acc : KAcc)
    (h1 : ¬ timeLeftFn inp i j k te dt > age_universe inp)
    (h2 : ¬ fobsLeftFn inp acc.interp_left (timeLeftFn inp i j k te dt) fl >
      inp.target ((inp.nf : ℤ) - 1)) :
    processKK inp i j mt mr norm dt te fl fr k acc =
      (processKKgo inp i j k mt mr norm fl fr (timeLeftFn inp i j k te dt)
        (timeRightFn inp i j k te) acc, false) := by
  rw [processKK, if_neg h1, if_neg h2]

lemma kkLoop_of_true (inp : MapInputs) (i j : ℕ) (mt mr norm dt te fl fr : ℝ)
    (k : ℕ) (acc acc' : KAcc)
    (h : processKK inp i j mt mr norm dt te fl fr k acc = (acc', true)) :
    kkLoop inp i j mt mr norm dt te fl fr k acc = acc' := by
  rw [kkLoop, h]

lemma kkLoop_of_false_zero (inp : MapInputs) (i j : ℕ) (mt mr norm dt te fl fr : ℝ)
    (acc acc' : KAcc)
    (h : processKK inp i j mt mr norm dt te fl fr 0 acc = (acc', false)) :
    kkLoop inp i j mt mr norm dt te fl fr 0 acc = acc' := by
  rw [kkLoop, h]

lemma kkLoop_of_false_succ (inp : MapInputs) (i j : ℕ) (mt mr norm dt te fl fr : ℝ)
    (k' : ℕ) (acc acc' : KAcc)
    (h : processKK inp i j mt mr norm dt te fl fr (k' + 1) acc = (acc', false)) :
    kkLoop inp i j mt mr norm dt te fl fr (k' + 1) acc =
      kkLoop inp i j mt mr norm dt te fl fr k' acc' := by
  rw [kkLoop, h]

lemma pairIter_succ (inp : MapInputs) (i j : ℕ) (flds : Fields) (n : ℕ) :
    pairIter inp i j flds (n + 1) =
      mapperStep inp i j (inp.mtot i) (inp.mrat j) (inp.hard_norm i j)
        ((Real.logb 10 inp.sepa_init - Real.logb 10 (3 * MY_SCHW * inp.mtot i)) / inp.nsteps)
        (pairIter inp i j flds n) := by
  rw [pairIter, Function.iterate_succ_apply', pairIter]

/-! ### Claim C4: sentinel initialization and the sentinel invariant -/

/-- The (amended) sentinel invariant: any cell still at the `redz_final` NaN
sentinel has its `diff_num` cell still at the initial zero. -/
def SentinelInv (flds : Fields) : Prop :=
  ∀ a b c d : ℤ, flds.rf a b c d = none → flds.dn a b c d = some 0

lemma crossWrite_inv (inp : MapInputs) (i j k ff : ℕ)
    (mt mr norm ftemp fl fr zl zr tl tr : ℝ) (il ir : ℕ) (flds : Fields)
    (h : SentinelInv flds) :
    SentinelInv (crossWrite inp i j k ff mt mr norm ftemp fl fr zl zr tl tr il ir flds) := by
  rw [crossWrite]
  by_cases hz : crossNewz ftemp fl fr zl zr > 0
  · rw [if_pos hz]
    intro a b c d hrf
    simp only [set4] at hrf ⊢
    by_cases hc : a = (i : ℤ) ∧ b = (j : ℤ) ∧ c = (k : ℤ) ∧ d = (ff : ℤ)
    · rw [if_pos hc] at hrf
      exact absurd hrf (by simp)
    · rw [if_neg hc] at hrf
      rw [if_neg hc]
      exact h a b c d hrf
  · rw [if_neg hz]; exact h

lemma freqLoop_inv (inp : MapInputs) (i j k : ℕ) (mt mr norm fl fr zl zr tl tr : ℝ)
    (il ir : ℕ) :
    ∀ fuel ff ftemp flds, SentinelInv flds →
      SentinelInv (freqLoop inp i j k mt mr norm fl fr zl zr tl tr il ir fuel ff ftemp flds) := by
  intro fuel
  induction fuel with
  | zero =>
    intro ff ftemp flds h
    rw [freqLoop]
    exact h
  | succ f ih =>
    intro ff ftemp flds h
    by_cases hc : fl < ftemp ∧ ftemp < fr ∧ ff < inp.nf
    · rw [freqLoop_step inp i j k mt mr norm fl fr zl zr tl tr il ir f ff ftemp flds hc]
      exact ih _ _ _ (crossWrite_inv inp i j k ff mt mr norm ftemp fl fr zl zr tl tr il ir flds h)
    · rw [freqLoop_stop inp i j k mt mr norm fl fr zl zr tl tr il ir f ff ftemp flds hc]
      exact h

lemma processKK_inv (inp : MapInputs) (i j : ℕ) (mt mr norm dt te fl fr : ℝ)
    (k : ℕ) (acc : KAcc) (h : SentinelInv acc.flds) :
    SentinelInv ((processKK inp i j mt mr norm dt te fl fr k acc).1.flds) := by
  rw [processKK]
  by_cases h1 : timeLeftFn inp i j k te dt > age_universe inp
  · rw [if_pos h1]; exact h
  · rw [if_neg h1]
    by_cases h2 : fobsLeftFn inp acc.interp_left (timeLeftFn inp i j k te dt) fl >
        inp.target ((inp.nf : ℤ) - 1)
    · rw [if_pos h2]; exact h
    · rw [if_neg h2]
      exact freqLoop_inv inp i j k mt mr norm _ _ _ _ _ _ _ _ _ _ _ _ h

lemma kkLoop_inv (inp : MapInputs) (i j : ℕ) (mt mr norm dt te fl fr : ℝ) :
    ∀ k acc, SentinelInv acc.flds →
      SentinelInv ((kkLoop inp i j mt mr norm dt te fl fr k acc).flds) := by
  intro k
  induction k with
  | zero =>
    intro acc h
    rw [kkLoop]
    rcases hp : processKK inp i j mt mr norm dt te fl fr 0 acc with ⟨acc', b⟩
    have h' : SentinelInv acc'.flds := by
      have hh := processKK_inv inp i j mt mr norm dt te fl fr 0 acc h
      rw [hp] at hh
      exact hh
    cases b
    · exact h'
    · exact h'
  | succ k' ih =>
    intro acc h
    rw [kkLoop]
    rcases hp : processKK inp i j mt mr norm dt te fl fr (k' + 1) acc with ⟨acc', b⟩
    have h' : SentinelInv acc'.flds := by
      have hh := processKK_inv inp i j mt mr norm dt te fl fr (k' + 1) acc h
      rw [hp] at hh
      exact hh
    cases b
    · exact ih acc' h'
    · exact h'

lemma mapperStep_inv (inp : MapInputs) (i j : ℕ) (mt mr norm dx : ℝ) (st : PairState)
    (h : SentinelInv st.flds) :
    SentinelInv (mapperStep inp i j mt mr norm dx st).flds := by
  show SentinelInv (stepAcc inp i j mt mr norm dx st).flds
  rw [stepAcc]
  by_cases hz : inp.nz = 0
  · rw [if_pos hz]; exact h
  · rw [if_neg hz]
    exact kkLoop_inv inp i j mt mr norm _ _ _ _ (inp.nz - 1) ⟨st.interp_left, st.fidx, st.flds⟩ h

lemma pairIter_inv (inp : MapInputs) (i j : ℕ) (flds : Fields) (h : SentinelInv flds) :
    ∀ k, SentinelInv (pairIter inp i j flds k).flds := by
  intro k
  induction k with
  | zero => exact h
  | succ n ih =>
    rw [pairIter_succ]
    exact mapperStep_inv inp i j _ _ _ _ _ ih

lemma foldl_pres {α : Type} (Q : Fields → Prop) (g : Fields → α → Fields)
    (hg : ∀ x flds, Q flds → Q (g flds x)) :
    ∀ (l : List α) (flds : Fields), Q flds → Q (l.foldl g flds) := by
  intro l
  induction l with
  | nil => intro flds h; exact h
  | cons x xs ih => intro flds h; exact ih _ (hg x flds h)

lemma dyn_inv (inp : MapInputs) : SentinelInv (dynamic_binary_number_at_fobs inp) := by
  rw [dynamic_binary_number_at_fobs, _dynamic_binary_number_at_fobs]
  apply foldl_pres SentinelInv
  · intro i flds h
    apply foldl_pres SentinelInv
    · intro j flds' h'
      exact pairIter_inv inp i j flds' h' inp.nsteps
    · exact h
  · intro a b c d _
    rfl

/-- C4 amended: `redz_final` is initialized to the NaN sentinel but `diff_num` is
initialized to zeros (`np.zeros`, line 237), not to NaN; after the pass, every
cell where `redz_final` still holds the sentinel has `diff_num` still equal to
its initial zero (the two fields are only ever written together). -/
theorem C4_amended_sentinel_invariant (inp : MapInputs) :
    (∀ a b c d : ℤ, initialFields.rf a b c d = none) ∧
    (∀ a b c d : ℤ, initialFields.dn a b c d = some 0) ∧
    dynamic_binary_number_at_fobs inp = _dynamic_binary_number_at_fobs inp initialFields ∧
    (∀ a b c d : ℤ, (dynamic_binary_number_at_fobs inp).rf a b c d = none →
      (dynamic_binary_number_at_fobs inp).dn a b c d = some 0) :=
  ⟨fun _ _ _ _ => rfl, fun _ _ _ _ => rfl, rfl, dyn_inv inp⟩

/-- Trivial mapper input (all extents zero, all arrays zero) exercising the
empty-edges case of C5: with `nf = 0` (and `nm = 0`) the pass makes no writes
at all. -/
def c4inp : MapInputs :=
  ⟨0, 0, 0, 0, 0, fun _ => 0, fun _ _ => 0, 0, 0, 0, fun _ _ _ => 0, fun _ => 0,
    fun _ => 0, fun _ => 0, fun _ _ _ => 0, 0, 0, fun _ => 0, fun _ => 0, fun _ => 0⟩

/-! ### Frame lemmas: which cells a loop level can write -/

/-- `F` and `G` agree on every frequency entry of the 3-D cell `(a, b, c)`. -/
def FieldsAgreeAt (F G : Fields) (a b c : ℤ) : Prop :=
  ∀ d : ℤ, F.rf a b c d = G.rf a b c d ∧ F.dn a b c d = G.dn a b c d

lemma agreeAt_refl (F : Fields) (a b c : ℤ) : FieldsAgreeAt F F a b c :=
  fun _ => ⟨rfl, rfl⟩

lemma agreeAt_trans {F G H : Fields} {a b c : ℤ}
    (h1 : FieldsAgreeAt F G a b c) (h2 : FieldsAgreeAt G H a b c) :
    FieldsAgreeAt F H a b c :=
  fun d => ⟨(h1 d).1.trans (h2 d).1, (h1 d).2.trans (h2 d).2⟩

lemma crossWrite_frame (inp : MapInputs) (i j k ff : ℕ)
    (mt mr norm ftemp fl fr zl zr tl tr : ℝ) (il ir : ℕ) (flds : Fields) (a b c : ℤ)
    (hne : ¬(a = (i : ℤ) ∧ b = (j : ℤ) ∧ c = (k : ℤ))) :
    FieldsAgreeAt (crossWrite inp i j k ff mt mr norm ftemp fl fr zl zr tl tr il ir flds)
      flds a b c := by
  rw [crossWrite]
  by_cases hz : crossNewz ftemp fl fr zl zr > 0
  · rw [if_pos hz]
    intro d
    have hcell : ¬(a = (i : ℤ) ∧ b = (j : ℤ) ∧ c = (k : ℤ) ∧ d = (ff : ℤ)) := by
      intro hcon
      exact hne ⟨hcon.1, hcon.2.1, hcon.2.2.1⟩
    constructor
    · simp only [set4]
      rw [if_neg hcell]
    · simp only [set4]
      rw [if_neg hcell]
  · rw [if_neg hz]
    exact agreeAt_refl flds a b c

lemma freqLoop_frame (inp : MapInputs) (i j k : ℕ) (mt mr norm fl fr zl zr tl tr : ℝ)
    (il ir : ℕ) (a b c : ℤ) (hne : ¬(a = (i : ℤ) ∧ b = (j : ℤ) ∧ c = (k : ℤ))) :
    ∀ fuel ff ftemp flds,
      FieldsAgreeAt (freqLoop inp i j k mt mr norm fl fr zl zr tl tr il ir fuel ff ftemp flds)
        flds a b c := by
  intro fuel
  induction fuel with
  | zero =>
    intro ff ftemp flds
    rw [freqLoop]
    exact agreeAt_refl flds a b c
  | succ f ih =>
    intro ff ftemp flds
    by_cases hc : fl < ftemp ∧ ftemp < fr ∧ ff < inp.nf
    · rw [freqLoop_step inp i j k mt mr norm fl fr zl zr tl tr il ir f ff ftemp flds hc]
      exact agreeAt_trans (ih _ _ _)
        (crossWrite_frame inp i j k ff mt mr norm ftemp fl fr zl zr tl tr il ir flds a b c hne)
    · rw [freqLoop_stop inp i j k mt mr norm fl fr zl zr tl tr il ir f ff ftemp flds hc]
      exact agreeAt_refl flds a b c

lemma processKK_cell (inp : MapInputs) (i j : ℕ) (mt mr norm dt te fl fr : ℝ)
    (ks : ℕ) (acc : KAcc) (a b c : ℤ)
    (h : (a = (i : ℤ) ∧ b = (j : ℤ) ∧ c = (ks : ℤ)) →
      timeLeftFn inp i j ks te dt > age_universe inp) :
    FieldsAgreeAt ((processKK inp i j mt mr norm dt te fl fr ks acc).1.flds)
      acc.flds a b c := by
  by_cases h1 : timeLeftFn inp i j ks te dt > age_universe inp
  · rw [processKK_stall inp i j mt mr norm dt te fl fr ks acc h1]
    exact agreeAt_refl _ a b c
  · have hne : ¬(a = (i : ℤ) ∧ b = (j : ℤ) ∧ c = (ks : ℤ)) := fun hc => h1 (h hc)
    by_cases h2 : fobsLeftFn inp acc.interp_left (timeLeftFn inp i j ks te dt) fl >
        inp.target ((inp.nf : ℤ) - 1)
    · rw [processKK_break inp i j mt mr norm dt te fl fr ks acc h1 h2]
      exact agreeAt_refl _ a b c
    · rw [processKK_go inp i j mt mr norm dt te fl fr ks acc h1 h2]
      show FieldsAgreeAt (processKKgo inp i j ks mt mr norm fl fr _ _ acc).flds acc.flds a b c
      rw [processKKgo]
      exact freqLoop_frame inp i j ks mt mr norm _ _ _ _ _ _ _ _ a b c hne _ _ _ _

lemma kkLoop_cell (inp : MapInputs) (i j : ℕ) (mt mr norm dt te fl fr : ℝ) (a b c : ℤ)
    (h : ∀ ks : ℕ, (a = (i : ℤ) ∧ b = (j : ℤ) ∧ c = (ks : ℤ)) →
      timeLeftFn inp i j ks te dt > age_universe inp) :
    ∀ k acc,
      FieldsAgreeAt ((kkLoop inp i j mt mr norm dt te fl fr k acc).flds) acc.flds a b c := by
  intro k
  induction k with
  | zero =>
    intro acc
    rw [kkLoop]
    rcases hp : processKK inp i j mt mr norm dt te fl fr 0 acc with ⟨acc', b'⟩
    have hagr : FieldsAgreeAt acc'.flds acc.flds a b c := by
      have hh := processKK_cell inp i j mt mr norm dt te fl fr 0 acc a b c (h 0)
      rw [hp] at hh
      exact hh
    cases b'
    · exact hagr
    · exact hagr
  | succ k' ih =>
    intro acc
    rw [kkLoop]
    rcases hp : processKK inp i j mt mr norm dt te fl fr (k' + 1) acc with ⟨acc', b'⟩
    have hagr : FieldsAgreeAt acc'.flds acc.flds a b c := by
      have hh := processKK_cell inp i j mt mr norm dt te fl fr (k' + 1) acc a b c (h (k' + 1))
      rw [hp] at hh
      exact hh
    cases b'
    · exact agreeAt_trans (ih acc') hagr
    · exact hagr

/-! ### Claim C6: stalled bins are skipped (continue, not break) -/

lemma pairIter_dadt (inp : MapInputs) (i j : ℕ) (flds : Fields) :
    ∀ k, (pairIter inp i j flds k).dadt_left =
      hard_func_2pwl_gw (inp.mtot i) (inp.mrat j) ((pairIter inp i j flds k).sepa_left)
        (inp.hard_norm i j) inp.rchar inp.gi inp.go := by
  intro k
  cases k with
  | zero => rfl
  | succ n => rw [pairIter_succ]; rfl

lemma pairIter_sl_eq (inp : MapInputs) (i j : ℕ) (flds : Fields) :
    ∀ k, (pairIter inp i j flds k).sepa_left = (10 : ℝ) ^ (pairIter inp i j flds k).sepa_log10 := by
  intro k
  cases k with
  | zero => rfl
  | succ n => rw [pairIter_succ]; rfl

lemma stepDt_nonneg (inp : MapInputs) (mt mr norm dx : ℝ) (st : PairState)
    (hmt : 0 < mt) (hmr : 0 < mr) (hn : 0 < norm) (hrc : 0 < inp.rchar) (hdx : 0 ≤ dx)
    (hsl : st.sepa_left = (10 : ℝ) ^ st.sepa_log10)
    (hdl : st.dadt_left = hard_func_2pwl_gw mt mr st.sepa_left norm inp.rchar inp.gi inp.go) :
    0 ≤ stepDt inp mt mr norm dx st := by
  rw [stepDt]
  have hsr : (0 : ℝ) < (10 : ℝ) ^ (st.sepa_log10 - dx) := Real.rpow_pos_of_pos (by norm_num) _
  have hslp : 0 < st.sepa_left := by
    rw [hsl]; exact Real.rpow_pos_of_pos (by norm_num) _
  have hle : (10 : ℝ) ^ (st.sepa_log10 - dx) ≤ st.sepa_left := by
    rw [hsl]
    exact (Real.rpow_le_rpow_left_iff (by norm_num)).mpr (by linarith)
  have hdr : hard_func_2pwl_gw mt mr ((10 : ℝ) ^ (st.sepa_log10 - dx)) norm inp.rchar
      inp.gi inp.go < 0 := hard_rate_neg hmt hmr hsr hn hrc
  have hdln : st.dadt_left < 0 := by
    rw [hdl]; exact hard_rate_neg hmt hmr hslp hn hrc
  apply div_nonneg_iff.mpr
  right
  exact ⟨by linarith, by linarith⟩

lemma pairIter_time_nonneg (inp : MapInputs) (i j : ℕ) (flds : Fields)
    (hmt : 0 < inp.mtot i) (hmr : 0 < inp.mrat j) (hn : 0 < inp.hard_norm i j)
    (hrc : 0 < inp.rchar)
    (hdx : 0 ≤ (Real.logb 10 inp.sepa_init - Real.logb 10 (3 * MY_SCHW * inp.mtot i)) /
      inp.nsteps) :
    ∀ k, 0 ≤ (pairIter inp i j flds k).time_evo := by
  intro k
  induction k with
  | zero => exact le_refl 0
  | succ n ih =>
    rw [pairIter_succ]
    show 0 ≤ (pairIter inp i j flds n).time_evo + stepDt inp _ _ _ _ _
    have hd := stepDt_nonneg inp (inp.mtot i) (inp.mrat j) (inp.hard_norm i j)
      ((Real.logb 10 inp.sepa_init - Real.logb 10 (3 * MY_SCHW * inp.mtot i)) / inp.nsteps)
      (pairIter inp i j flds n) hmt hmr hn hrc hdx (pairIter_sl_eq inp i j flds n)
      (pairIter_dadt inp i j flds n)
    linarith

lemma mapperStep_cell (inp : MapInputs) (i j : ℕ) (mt mr norm dx : ℝ) (st : PairState)
    (a b c : ℤ)
    (h : ∀ ks : ℕ, (a = (i : ℤ) ∧ b = (j : ℤ) ∧ c = (ks : ℤ)) →
      timeLeftFn inp i j ks (st.time_evo + stepDt inp mt mr norm dx st)
        (stepDt inp mt mr norm dx st) > age_universe inp) :
    FieldsAgreeAt (mapperStep inp i j mt mr norm dx st).flds st.flds a b c := by
  show FieldsAgreeAt (stepAcc inp i j mt mr norm dx st).flds st.flds a b c
  rw [stepAcc]
  by_cases hz : inp.nz = 0
  · rw [if_pos hz]; exact agreeAt_refl st.flds a b c
  · rw [if_neg hz]
    exact kkLoop_cell inp i j mt mr norm _ _ _ _ a b c h (inp.nz - 1)
      ⟨st.interp_left, st.fidx, st.flds⟩

lemma pairIter_stalled_cell (inp : MapInputs) (i j k : ℕ) (flds : Fields)
    (hmt : 0 < inp.mtot i) (hmr : 0 < inp.mrat j) (hn : 0 < inp.hard_norm i j)
    (hrc : 0 < inp.rchar)
    (hdx : 0 ≤ (Real.logb 10 inp.sepa_init - Real.logb 10 (3 * MY_SCHW * inp.mtot i)) /
      inp.nsteps)
    (hstall : inp.gmt i j k + redzAgeArr inp k > age_universe inp) :
    ∀ n, FieldsAgreeAt (pairIter inp i j flds n).flds flds (i : ℤ) (j : ℤ) (k : ℤ) := by
  intro n
  induction n with
  | zero => exact agreeAt_refl flds _ _ _
  | succ n ih =>
    rw [pairIter_succ]
    refine agreeAt_trans (mapperStep_cell inp i j _ _ _ _ _ (i : ℤ) (j : ℤ) (k : ℤ) ?_) ih
    intro ks hcell
    have hks : ks = k := by
      have := hcell.2.2
      exact_mod_cast this.symm
    subst hks
    rw [timeLeftFn]
    have hte := pairIter_time_nonneg inp i j flds hmt hmr hn hrc hdx n
    have hmain : (pairIter inp i j flds n).time_evo + inp.gmt i j ks + redzAgeArr inp ks >
        age_universe inp := by linarith
    linarith

lemma pairIter_frame (inp : MapInputs) (i' j' : ℕ) (flds : Fields) (a b c : ℤ)
    (hne : ¬(a = (i' : ℤ) ∧ b = (j' : ℤ))) :
    ∀ n, FieldsAgreeAt (pairIter inp i' j' flds n).flds flds a b c := by
  intro n
  induction n with
  | zero => exact agreeAt_refl flds _ _ _
  | succ n ih =>
    rw [pairIter_succ]
    refine agreeAt_trans (mapperStep_cell inp i' j' _ _ _ _ _ a b c ?_) ih
    intro ks hcell
    exact absurd ⟨hcell.1, hcell.2.1⟩ hne

/-- C6: for every (mass, ratio, start-redshift) cell whose galaxy-merger time plus
the age of the universe at the formation redshift already exceeds the present age
of the universe, the Mapper writes nothing to any frequency bin of that cell
across all steps, and the stalled bin is handled by a `continue` (the bin body
returns the state unchanged with no break), so lower-redshift bins of the same
(mass, ratio, step) are still examined. -/
theorem C6_stalled_bin_skipped (inp : MapInputs) (i j k : ℕ)
    (hmt : 0 < inp.mtot i) (hmr : 0 < inp.mrat j) (hn : 0 < inp.hard_norm i j)
    (hrc : 0 < inp.rchar) (hsep : risco (inp.mtot i) ≤ inp.sepa_init)
    (hstall : inp.gmt i j k + redzAgeArr inp k > age_universe inp) :
    (∀ d : ℤ, (dynamic_binary_number_at_fobs inp).rf i j k d = none ∧
      (dynamic_binary_number_at_fobs inp).dn i j k d = some 0) ∧
    (∀ (mt mr norm dt te fl fr : ℝ) (acc : KAcc),
      timeLeftFn inp i j k te dt > age_universe inp →
      processKK inp i j mt mr norm dt te fl fr k acc = (acc, false)) ∧
    (∀ (mt mr norm dt te fl fr : ℝ) (acc : KAcc) (k' : ℕ), k = k' + 1 →
      timeLeftFn inp i j k te dt > age_universe inp →
      kkLoop inp i j mt mr norm dt te fl fr k acc =
        kkLoop inp i j mt mr norm dt te fl fr k' acc) := by
  have hriscop : 0 < risco (inp.mtot i) := risco_pos hmt
  have hdx : 0 ≤ (Real.logb 10 inp.sepa_init - Real.logb 10 (3 * MY_SCHW * inp.mtot i)) /
      inp.nsteps := by
    have hlog : Real.logb 10 (risco (inp.mtot i)) ≤ Real.logb 10 inp.sepa_init :=
      Real.logb_le_logb_of_le (by norm_num) hriscop hsep
    rw [risco] at hlog
    exact div_nonneg (by linarith) (Nat.cast_nonneg _)
  refine ⟨?_, ?_, ?_⟩
  · have hmain : FieldsAgreeAt (dynamic_binary_number_at_fobs inp) initialFields i j k := by
      rw [dynamic_binary_number_at_fobs, _dynamic_binary_number_at_fobs]
      apply foldl_pres (fun flds => FieldsAgreeAt flds initialFields (i : ℤ) (j : ℤ) (k : ℤ))
      · intro i' flds h
        apply foldl_pres (fun flds => FieldsAgreeAt flds initialFields (i : ℤ) (j : ℤ) (k : ℤ))
        · intro j' flds' h'
          by_cases hij : i' = i ∧ j' = j
          · obtain ⟨rfl, rfl⟩ := hij
            exact agreeAt_trans
              (pairIter_stalled_cell inp i' j' k flds' hmt hmr hn hrc hdx hstall inp.nsteps) h'
          · refine agreeAt_trans (pairIter_frame inp i' j' flds' (i : ℤ) (j : ℤ) (k : ℤ) ?_
              inp.nsteps) h'
            intro hc
            exact hij ⟨(Nat.cast_inj.mp hc.1).symm, (Nat.cast_inj.mp hc.2).symm⟩
        · exact h
      · exact agreeAt_refl initialFields _ _ _
    intro d
    exact ⟨(hmain d).1, (hmain d).2⟩
  · intro mt mr norm dt te fl fr acc hTL
    exact processKK_stall inp i j mt mr norm dt te fl fr k acc hTL
  · intro mt mr norm dt te fl fr acc k' heq hTL
    subst heq
    exact kkLoop_of_false_succ inp i j mt mr norm dt te fl fr k' acc acc
      (processKK_stall inp i j mt mr norm dt te fl fr (k' + 1) acc hTL)

/-- Concrete input for the C6 witness: one cell, two-point cosmology grids, and a
galaxy-merger time (1000 s) far beyond the age of the universe (100 s). -/
def c6inp : MapInputs :=
  ⟨1, 1, 1, 1, 2, fun _ => 0, fun _ _ => 1, 1, 1, 1, fun _ _ _ => 1, fun _ => c_mt,
    fun _ => 1, fun _ => 1, fun _ _ _ => 1000, 10, 1,
    fun n => if n = 0 then 1 else 0, fun _ => 0, fun n => if n = 0 then 0 else 100⟩

lemma c6_redzAge : redzAgeArr c6inp 0 = 0 := by
  have h1 : ageSearch c6inp.rig (c6inp.redz 0) c6inp.ninterp c6inp.ninterp 0 = 0 := by
    show ageSearch c6inp.rig (c6inp.redz 0) 2 2 0 = 0
    rw [ageSearch, if_neg]
    intro hcon
    have := hcon.1
    norm_num [c6inp] at this
  show redzAgeAux c6inp 1 0 (fun _ => 0) 0 = 0
  rw [redzAgeAux, redzAgeAux]
  simp only [Nat.cast_zero]
  rw [if_true, h1]
  norm_num [interp_at_index, c6inp]

lemma c6_age_universe : age_universe c6inp = 100 := by
  show c6inp.tage ((2 : ℤ) - 1) = 100
  norm_num [c6inp]

/-- Witness for C6 at the concrete input `c6inp`, bin `k = 0`. -/
theorem C6_witness :
    c6inp.gmt 0 0 0 + redzAgeArr c6inp 0 > age_universe c6inp ∧
    (dynamic_binary_number_at_fobs c6inp).rf 0 0 0 0 = none ∧
    (dynamic_binary_number_at_fobs c6inp).dn 0 0 0 0 = some 0 := by
  have hst : c6inp.gmt 0 0 0 + redzAgeArr c6inp 0 > age_universe c6inp := by
    rw [c6_redzAge, c6_age_universe]
    norm_num [c6inp]
  have hmt : (0 : ℝ) < c6inp.mtot 0 := c_mt_pos
  have hsep : risco (c6inp.mtot 0) ≤ c6inp.sepa_init := by
    show risco c_mt ≤ 10
    rw [risco_c_mt]; norm_num
  have hmain := (C6_stalled_bin_skipped c6inp 0 0 0 hmt (by norm_num [c6inp])
    (by norm_num [c6inp]) (by norm_num [c6inp]) hsep hst).1 0
  refine ⟨hst, ?_, ?_⟩
  · have := hmain.1
    simpa using this
  · have := hmain.2
    simpa using this

/-! ### Claim C5: empty / single-edge target frequency arrays -/

lemma freqLoop_nf0 (inp : MapInputs) (i j k : ℕ) (mt mr norm fl fr zl zr tl tr : ℝ)
    (il ir : ℕ) (h : inp.nf = 0) :
    ∀ fuel ff ftemp flds,
      freqLoop inp i j k mt mr norm fl fr zl zr tl tr il ir fuel ff ftemp flds = flds := by
  intro fuel
  induction fuel with
  | zero => intro ff ftemp flds; rw [freqLoop]
  | succ f ih =>
    intro ff ftemp flds
    rw [freqLoop_stop]
    intro hcon
    omega

lemma processKK_flds_nf0 (inp : MapInputs) (i j : ℕ) (mt mr norm dt te fl fr : ℝ)
    (k : ℕ) (acc : KAcc) (h : inp.nf = 0) :
    ((processKK inp i j mt mr norm dt te fl fr k acc).1).flds = acc.flds := by
  rw [processKK]
  by_cases h1 : timeLeftFn inp i j k te dt > age_universe inp
  · rw [if_pos h1]
  · rw [if_neg h1]
    by_cases h2 : fobsLeftFn inp acc.interp_left (timeLeftFn inp i j k te dt) fl >
        inp.target ((inp.nf : ℤ) - 1)
    · rw [if_pos h2]
    · rw [if_neg h2]
      show (processKKgo inp i j k mt mr norm fl fr _ _ acc).flds = acc.flds
      rw [processKKgo]
      exact freqLoop_nf0 inp i j k mt mr norm _ _ _ _ _ _ _ _ h _ _ _ _

lemma kkLoop_flds_nf0 (inp : MapInputs) (i j : ℕ) (mt mr norm dt te fl fr : ℝ)
    (h : inp.nf = 0) :
    ∀ k acc, (kkLoop inp i j mt mr norm dt te fl fr k acc).flds = acc.flds := by
  intro k
  induction k with
  | zero =>
    intro acc
    rw [kkLoop]
    rcases hp : processKK inp i j mt mr norm dt te fl fr 0 acc with ⟨acc', b'⟩
    have heq : acc'.flds = acc.flds := by
      have hh := processKK_flds_nf0 inp i j mt mr norm dt te fl fr 0 acc h
      rw [hp] at hh
      exact hh
    cases b'
    · exact heq
    · exact heq
  | succ k' ih =>
    intro acc
    rw [kkLoop]
    rcases hp : processKK inp i j mt mr norm dt te fl fr (k' + 1) acc with ⟨acc', b'⟩
    have heq : acc'.flds = acc.flds := by
      have hh := processKK_flds_nf0 inp i j mt mr norm dt te fl fr (k' + 1) acc h
      rw [hp] at hh
      exact hh
    cases b'
    · exact (ih acc').trans heq
    · exact heq

lemma pairIter_flds_nf0 (inp : MapInputs) (i j : ℕ) (flds : Fields) (h : inp.nf = 0) :
    ∀ n, (pairIter inp i j flds n).flds = flds := by
  intro n
  induction n with
  | zero => rfl
  | succ n ih =>
    rw [pairIter_succ]
    show (stepAcc inp i j _ _ _ _ (pairIter inp i j flds n)).flds = flds
    rw [stepAcc]
    by_cases hz : inp.nz = 0
    · rw [if_pos hz]; exact ih
    · rw [if_neg hz]
      exact (kkLoop_flds_nf0 inp i j _ _ _ _ _ _ _ h _ _).trans ih

/-- C5 amended: if `TargetFrequencyEdges` is *empty*, no crossings are recorded:
the pass returns the output fields exactly as initialized (`redz_final` all-NaN,
`diff_num` all-zero).  (With a *single* edge, crossings can still be recorded —
see the counterexample: the inner loop guard only requires `ff < nf`.) -/
theorem C5_amended_empty_edges (inp : MapInputs) (h : inp.nf = 0) :
    dynamic_binary_number_at_fobs inp = initialFields := by
  rw [dynamic_binary_number_at_fobs, _dynamic_binary_number_at_fobs]
  apply foldl_pres (fun F => F = initialFields)
  · intro i F hF
    apply foldl_pres (fun F => F = initialFields)
    · intro j F' hF'
      show (pairIter inp i j F' inp.nsteps).flds = initialFields
      rw [pairIter_flds_nf0 inp i j F' h inp.nsteps]
      exact hF'
    · exact hF
  · rfl

/-- Age scale of the C5 counterexample cosmology table. -/
def c5T : ℝ := 1000000

/-- The single target frequency edge of the C5 counterexample: between the
observed-frame left and right step-edge frequencies. -/
def c5_t0 : ℝ := KEPLER_CONST_FREQ * Real.sqrt c_mt * ((10 : ℝ) ^ (-(1.5 : ℝ)) + 1) / 4

/-- Concrete mapper input with a *single* target frequency edge: one (mass,
ratio, redshift) cell, one step from 10 cm to ISCO = 1 cm, two-point cosmology
grids `rig = [1, 0]`, `tage = [0, c5T]`, constant comoants `dcom = MPC`. -/
def c5inp : MapInputs :=
  ⟨1, 1, 1, 1, 2, fun _ => c5_t0, fun _ _ => 1, 1, 1, 1, fun _ _ _ => 1, fun _ => c_mt,
    fun _ => 1, fun _ => 1, fun _ _ _ => 0, 10, 1,
    fun n => if n = 0 then 1 else 0, fun _ => MY_MPC, fun n => if n = 0 then 0 else c5T⟩

/-- The (exact, rational) trapezoidal time of the single step of the C5 run. -/
def c5_dt : ℝ := 2 * ((1 : ℝ) - 10) / ((-1 + cG / 1000) + (-1 + cG))

/-- Left-edge observed-frame frequency of the C5 run. -/
def c5_fl : ℝ := kepler_freq_from_sepa c_mt 10 / (1 + 1)

/-- Right-edge observed-frame frequency of the C5 run. -/
def c5_fr : ℝ := kepler_freq_from_sepa c_mt 1 / (1 + (1 - c5_dt / c5T))

/-- The crossing redshift recorded by the C5 run. -/
def c5_newz : ℝ := crossNewz c5_t0 c5_fl c5_fr 1 (1 - c5_dt / c5T)

lemma c5_dt_bounds : 0 < c5_dt ∧ c5_dt < 1 / 2 := by
  have h := c1_time_bound 0
  rw [Real.rpow_zero] at h
  exact h

lemma c5_A_bounds : 0 < (10 : ℝ) ^ (-(1.5 : ℝ)) ∧ (10 : ℝ) ^ (-(1.5 : ℝ)) < 1 := by
  constructor
  · exact Real.rpow_pos_of_pos (by norm_num) _
  · have h : (10 : ℝ) ^ (-(1.5 : ℝ)) < (10 : ℝ) ^ (0 : ℝ) :=
      (Real.rpow_lt_rpow_left_iff (by norm_num)).mpr (by norm_num)
    rwa [Real.rpow_zero] at h

lemma c5_Cs_pos : 0 < KEPLER_CONST_FREQ * Real.sqrt c_mt :=
  mul_pos KEPLER_CONST_FREQ_pos (Real.sqrt_pos.mpr c_mt_pos)

lemma c5_kf10 : kepler_freq_from_sepa c_mt 10 =
    KEPLER_CONST_FREQ * Real.sqrt c_mt * (10 : ℝ) ^ (-(1.5 : ℝ)) := by
  rw [kepler_freq_from_sepa, Real.rpow_neg (by norm_num), div_eq_mul_inv]

lemma c5_kf1 : kepler_freq_from_sepa c_mt 1 = KEPLER_CONST_FREQ * Real.sqrt c_mt := by
  rw [kepler_freq_from_sepa, Real.one_rpow, div_one]

lemma c5_d_bounds : 0 < c5_dt / c5T ∧ c5_dt / c5T < 1 / 2 := by
  have hdt := c5_dt_bounds
  have hT : (0 : ℝ) < c5T := by norm_num [c5T]
  constructor
  · exact div_pos hdt.1 hT
  · have h1 : c5_dt / c5T ≤ c5_dt := div_le_self (le_of_lt hdt.1) (by norm_num [c5T])
    linarith

lemma c5_freq_bounds : c5_fl < c5_t0 ∧ c5_t0 < c5_fr ∧ 0 < c5_fl := by
  have hA := c5_A_bounds
  have hCs := c5_Cs_pos
  have hd := c5_d_bounds
  have hfl : c5_fl = KEPLER_CONST_FREQ * Real.sqrt c_mt * (10 : ℝ) ^ (-(1.5 : ℝ)) / 2 := by
    rw [c5_fl, c5_kf10]; norm_num
  have hfr : c5_fr = KEPLER_CONST_FREQ * Real.sqrt c_mt / (2 - c5_dt / c5T) := by
    rw [c5_fr, c5_kf1]; ring_nf
  refine ⟨?_, ?_, ?_⟩
  · rw [hfl, c5_t0]
    rw [div_lt_div_iff (by norm_num) (by norm_num)]
    nlinarith [hA.1, hA.2, hCs]
  · rw [hfr, c5_t0]
    rw [div_lt_div_iff (by norm_num) (by linarith [hd.2])]
    have hA1 : ((10 : ℝ) ^ (-(1.5 : ℝ)) + 1) * (2 - c5_dt / c5T) < 4 := by
      nlinarith [hA.1, hA.2, hd.1, hd.2]
    nlinarith [mul_lt_mul_of_pos_left hA1 hCs]
  · rw [hfl]
    have := mul_pos hCs hA.1
    linarith

lemma c5_newz_bounds : 0 < c5_newz ∧ c5_newz ≤ 1 := by
  have hf := c5_freq_bounds
  have hd := c5_d_bounds
  have hfrfl : 0 < c5_fr - c5_fl := by linarith [hf.1, hf.2.1]
  have hth1 : 0 < (c5_t0 - c5_fl) / (c5_fr - c5_fl) := div_pos (by linarith [hf.1]) hfrfl
  have hth2 : (c5_t0 - c5_fl) / (c5_fr - c5_fl) < 1 :=
    (div_lt_one hfrfl).mpr (by linarith [hf.2.1])
  have hz : c5_newz = 1 - (c5_dt / c5T) * ((c5_t0 - c5_fl) / (c5_fr - c5_fl)) := by
    rw [c5_newz, crossNewz, interp_between_vals]
    ring
  rw [hz]
  constructor
  · nlinarith [hd.1, hd.2, hth1, hth2]
  · nlinarith [hd.1, hth1]

lemma c5_mtot (z : ℤ) : c5inp.mtot z = c_mt := rfl

lemma c5_sepa_init : c5inp.sepa_init = 10 := rfl

lemma c5_nsteps : c5inp.nsteps = 1 := rfl

lemma c5_nm : c5inp.nm = 1 := rfl

lemma c5_nq : c5inp.nq = 1 := rfl

lemma c5_nz : c5inp.nz = 1 := rfl

lemma c5_nf : c5inp.nf = 1 := rfl

lemma c5_ninterp : c5inp.ninterp = 2 := rfl

lemma c5_rchar : c5inp.rchar = 1 := rfl

lemma c5_gi : c5inp.gi = 1 := rfl

lemma c5_go : c5inp.go = 1 := rfl

lemma c5_gmt (x y z : ℤ) : c5inp.gmt x y z = 0 := rfl

lemma c5_dens (x y z : ℤ) : c5inp.dens x y z = 1 := rfl

lemma c5_target (z : ℤ) : c5inp.target z = c5_t0 := rfl

lemma c5_tage (z : ℤ) : c5inp.tage z = if z = 0 then 0 else c5T := rfl

lemma c5_rig (z : ℤ) : c5inp.rig z = if z = 0 then 1 else 0 := rfl

lemma c5_dcomg (z : ℤ) : c5inp.dcomg z = MY_MPC := rfl

lemma c5T_pos : (0 : ℝ) < c5T := by norm_num [c5T]

lemma c5_redzAge : redzAgeArr c5inp 0 = 0 := by
  have h1 : ageSearch c5inp.rig (c5inp.redz 0) c5inp.ninterp c5inp.ninterp 0 = 0 := by
    show ageSearch c5inp.rig (c5inp.redz 0) 2 2 0 = 0
    rw [ageSearch, if_neg]
    intro hcon
    have := hcon.1
    norm_num [c5inp] at this
  show redzAgeAux c5inp 1 0 (fun _ => 0) 0 = 0
  rw [redzAgeAux, redzAgeAux]
  simp only [Nat.cast_zero]
  rw [if_true, h1]
  norm_num [interp_at_index, c5inp, c5T]

lemma c5_age : age_universe c5inp = c5T := by
  rw [age_universe, c5_ninterp, c5_tage]
  norm_num

lemma c5_ww_tage : while_while 0 2 0 c5inp.tage = 0 := by
  rw [while_while]
  have hup : while_up c5inp.tage 2 0 2 0 = 0 := by
    rw [while_up, if_neg]
    intro hcon
    have h2 := hcon.2
    rw [c5_tage] at h2
    norm_num [c5T] at h2
  rw [hup]
  rw [while_down, if_neg]
  intro hcon
  exact absurd hcon.1 (by norm_num)

lemma c5_interpLeft : interpLeftIdx c5inp 0 0 = 0 := by
  rw [interpLeftIdx, c5_ninterp]
  exact c5_ww_tage

lemma c5_interpRight : interpRightIdx c5inp 0 0 = 0 := by
  rw [interpRightIdx, c5_interpLeft, c5_ninterp]
  exact c5_ww_tage

lemma c5_redzLeft : redzLeftFn c5inp 0 0 = 1 := by
  rw [redzLeftFn, c5_interpLeft, interp_at_index]
  norm_num [c5_tage, c5_rig, c5T]

lemma c5_redzRight : redzRightFn c5inp 0 0 c5_dt = 1 - c5_dt / c5T := by
  rw [redzRightFn, c5_interpRight, interp_at_index]
  rw [c5_tage, c5_tage, c5_rig, c5_rig]
  norm_num
  ring

lemma c5_fobsLeft : fobsLeftFn c5inp 0 0 (kepler_freq_from_sepa c_mt 10) = c5_fl := by
  rw [fobsLeftFn, c5_redzLeft, c5_fl]

lemma c5_fobsRight :
    fobsRightFn c5inp 0 0 c5_dt (kepler_freq_from_sepa c_mt 1) = c5_fr := by
  rw [fobsRightFn, c5_redzRight, c5_fr]

lemma c5_pow0 : (10 : ℝ) ^ ((1 : ℝ) - 1) = 1 := by
  rw [show (1 : ℝ) - 1 = 0 by norm_num, Real.rpow_zero]

lemma c5_hard_at (s : ℝ) : hard_func_2pwl_gw c_mt 1 s 1 c5inp.rchar c5inp.gi c5inp.go
    = -1 + GW_DADT_SEP_CONST * c_mt ^ (3 : ℕ) / 4 / s ^ (3 : ℕ) := by
  rw [c5_rchar, c5_gi, c5_go, hard_eval_one]
  ring

lemma c5_hard10 : hard_func_2pwl_gw c_mt 1 10 1 c5inp.rchar c5inp.gi c5inp.go
    = -1 + cG / 1000 := by
  rw [c5_hard_at, cG]
  norm_num

lemma c5_hard1 : hard_func_2pwl_gw c_mt 1 1 1 c5inp.rchar c5inp.gi c5inp.go = -1 + cG := by
  rw [c5_hard_at, cG]
  norm_num

lemma c5_dx : (Real.logb 10 c5inp.sepa_init - Real.logb 10 (3 * MY_SCHW * c5inp.mtot 0)) /
    (c5inp.nsteps : ℝ) = 1 := by
  rw [c5_sepa_init, c5_mtot, three_schw_c_mt, c5_nsteps]
  rw [Real.logb_self_eq_one (by norm_num : (1 : ℝ) < 10), Real.logb_one]
  norm_num

lemma c5_st : pairInit c5inp c_mt 1 1 initialFields =
    ⟨1, 10, -1 + cG / 1000, kepler_freq_from_sepa c_mt 10, 0, 0, 0, initialFields⟩ := by
  have h1 : Real.logb 10 c5inp.sepa_init = 1 := by
    rw [c5_sepa_init]
    exact Real.logb_self_eq_one (by norm_num)
  have h2 : (10 : ℝ) ^ (Real.logb 10 c5inp.sepa_init) = 10 := by
    rw [h1, Real.rpow_one]
  show (⟨Real.logb 10 c5inp.sepa_init, (10 : ℝ) ^ (Real.logb 10 c5inp.sepa_init),
      hard_func_2pwl_gw c_mt 1 ((10 : ℝ) ^ (Real.logb 10 c5inp.sepa_init)) 1 c5inp.rchar
        c5inp.gi c5inp.go,
      kepler_freq_from_sepa c_mt ((10 : ℝ) ^ (Real.logb 10 c5inp.sepa_init)), 0, 0, 0,
      initialFields⟩ : PairState) = _
  rw [h2, h1, c5_hard10]

lemma c5_stepdt :
    stepDt c5inp c_mt 1 1 1
      ⟨1, 10, -1 + cG / 1000, kepler_freq_from_sepa c_mt 10, 0, 0, 0, initialFields⟩ =
    c5_dt := by
  show 2 * ((10 : ℝ) ^ ((1 : ℝ) - 1) - 10) /
    ((-1 + cG / 1000) +
      hard_func_2pwl_gw c_mt 1 ((10 : ℝ) ^ ((1 : ℝ) - 1)) 1 c5inp.rchar c5inp.gi c5inp.go) =
      c5_dt
  rw [c5_pow0, c5_hard1, c5_dt]

lemma c5_stageA :
    dynamic_binary_number_at_fobs c5inp =
      (stepAcc c5inp 0 0 c_mt 1 1 1 (pairInit c5inp c_mt 1 1 initialFields)).flds := by
  rw [dynamic_binary_number_at_fobs, _dynamic_binary_number_at_fobs, c5_nm, c5_nq]
  simp only [List.range_succ, List.range_zero, List.nil_append, List.foldl_cons,
    List.foldl_nil]
  show (pairIter c5inp 0 0 initialFields c5inp.nsteps).flds = _
  rw [c5_nsteps, pairIter_succ]
  show (stepAcc c5inp 0 0 c_mt 1 1
      ((Real.logb 10 c5inp.sepa_init - Real.logb 10 (3 * MY_SCHW * c5inp.mtot 0)) /
        (c5inp.nsteps : ℝ)) (pairInit c5inp c_mt 1 1 initialFields)).flds =
    (stepAcc c5inp 0 0 c_mt 1 1 1 (pairInit c5inp c_mt 1 1 initialFields)).flds
  rw [c5_dx]

lemma c5_stageB :
    dynamic_binary_number_at_fobs c5inp =
      (kkLoop c5inp 0 0 c_mt 1 1 c5_dt (0 + c5_dt) (kepler_freq_from_sepa c_mt 10)
        (kepler_freq_from_sepa c_mt 1) 0 ⟨0, 0, initialFields⟩).flds := by
  rw [c5_stageA, c5_st, stepAcc, if_neg (by rw [c5_nz]; norm_num)]
  show (kkLoop c5inp 0 0 c_mt 1 1
      (stepDt c5inp c_mt 1 1 1
        ⟨1, 10, -1 + cG / 1000, kepler_freq_from_sepa c_mt 10, 0, 0, 0, initialFields⟩)
      (0 + stepDt c5inp c_mt 1 1 1
        ⟨1, 10, -1 + cG / 1000, kepler_freq_from_sepa c_mt 10, 0, 0, 0, initialFields⟩)
      (kepler_freq_from_sepa c_mt 10)
      (kepler_freq_from_sepa c_mt ((10 : ℝ) ^ ((1 : ℝ) - 1))) (c5inp.nz - 1)
      ⟨0, 0, initialFields⟩).flds = _
  rw [c5_stepdt, c5_pow0, c5_nz]

lemma c5_tl : timeLeftFn c5inp 0 0 0 (0 + c5_dt) c5_dt = 0 := by
  rw [timeLeftFn]
  simp only [Nat.cast_zero]
  rw [c5_gmt, c5_redzAge]
  ring

lemma c5_tr : timeRightFn c5inp 0 0 0 (0 + c5_dt) = c5_dt := by
  rw [timeRightFn]
  simp only [Nat.cast_zero]
  rw [c5_gmt, c5_redzAge]
  ring

lemma c5_ww_target : while_while 0 1 c5_fl c5inp.target = 0 := by
  rw [while_while]
  have hup : while_up c5inp.target 1 c5_fl 1 0 = 0 := by
    rw [while_up, if_neg]
    intro hcon
    exact absurd hcon.1 (by norm_num)
  rw [hup, while_down, if_neg]
  intro hcon
  exact absurd hcon.1 (by norm_num)

lemma c5_kkloop :
    kkLoop c5inp 0 0 c_mt 1 1 c5_dt (0 + c5_dt) (kepler_freq_from_sepa c_mt 10)
      (kepler_freq_from_sepa c_mt 1) 0 ⟨0, 0, initialFields⟩ =
    processKKgo c5inp 0 0 0 c_mt 1 1 (kepler_freq_from_sepa c_mt 10)
      (kepler_freq_from_sepa c_mt 1) 0 c5_dt ⟨0, 0, initialFields⟩ := by
  have h1 : ¬ timeLeftFn c5inp 0 0 0 (0 + c5_dt) c5_dt > age_universe c5inp := by
    rw [c5_tl, c5_age]
    norm_num [c5T]
  have h2 : ¬ fobsLeftFn c5inp (0 : ℕ) (timeLeftFn c5inp 0 0 0 (0 + c5_dt) c5_dt)
      (kepler_freq_from_sepa c_mt 10) > c5inp.target ((c5inp.nf : ℤ) - 1) := by
    rw [c5_tl, c5_fobsLeft, c5_target]
    exact not_lt.mpr (le_of_lt c5_freq_bounds.1)
  rw [kkLoop_of_false_zero c5inp 0 0 c_mt 1 1 c5_dt (0 + c5_dt)
    (kepler_freq_from_sepa c_mt 10) (kepler_freq_from_sepa c_mt 1) ⟨0, 0, initialFields⟩ _
    (processKK_go c5inp 0 0 c_mt 1 1 c5_dt (0 + c5_dt) (kepler_freq_from_sepa c_mt 10)
      (kepler_freq_from_sepa c_mt 1) 0 ⟨0, 0, initialFields⟩ h1 h2)]
  rw [c5_tl, c5_tr]

lemma c5_go_eval :
    processKKgo c5inp 0 0 0 c_mt 1 1 (kepler_freq_from_sepa c_mt 10)
      (kepler_freq_from_sepa c_mt 1) 0 c5_dt ⟨0, 0, initialFields⟩ =
    ⟨0, 0, freqLoop c5inp 0 0 0 c_mt 1 1 c5_fl c5_fr 1 (1 - c5_dt / c5T) 0 c5_dt 0 0 (1 + 1)
      0 c5_t0 initialFields⟩ := by
  show (⟨interpLeftIdx c5inp 0 0,
      while_while 0 c5inp.nf (fobsLeftFn c5inp 0 0 (kepler_freq_from_sepa c_mt 10))
        c5inp.target,
      freqLoop c5inp 0 0 0 c_mt 1 1
        (fobsLeftFn c5inp 0 0 (kepler_freq_from_sepa c_mt 10))
        (fobsRightFn c5inp 0 0 c5_dt (kepler_freq_from_sepa c_mt 1))
        (redzLeftFn c5inp 0 0) (redzRightFn c5inp 0 0 c5_dt) 0 c5_dt
        (interpLeftIdx c5inp 0 0) (interpRightIdx c5inp 0 0) (c5inp.nf + 1)
        (while_while 0 c5inp.nf (fobsLeftFn c5inp 0 0 (kepler_freq_from_sepa c_mt 10))
          c5inp.target)
        (c5inp.target ((while_while 0 c5inp.nf
          (fobsLeftFn c5inp 0 0 (kepler_freq_from_sepa c_mt 10)) c5inp.target : ℕ) : ℤ))
        initialFields⟩ : KAcc) = _
  rw [c5_fobsLeft, c5_fobsRight, c5_redzLeft, c5_redzRight, c5_interpLeft, c5_interpRight,
    c5_nf, c5_ww_target, c5_target]

lemma c5_freq_eval :
    freqLoop c5inp 0 0 0 c_mt 1 1 c5_fl c5_fr 1 (1 - c5_dt / c5T) 0 c5_dt 0 0 (1 + 1)
      0 c5_t0 initialFields =
    ⟨set4 initialFields.rf 0 0 0 0 (some c5_newz),
     set4 initialFields.dn 0 0 0 0
       (some (c5inp.dens 0 0 0 * crossingTres c5inp c_mt 1 1 c5_t0 c5_newz *
         crossingFact c5_newz (crossingDcom c5inp c5_t0 c5_fl c5_fr 0 c5_dt 0 0)))⟩ := by
  have hb := c5_freq_bounds
  rw [freqLoop_step c5inp 0 0 0 c_mt 1 1 c5_fl c5_fr 1 (1 - c5_dt / c5T) 0 c5_dt 0 0 1 0
    c5_t0 initialFields ⟨hb.1, hb.2.1, by rw [c5_nf]; norm_num⟩]
  rw [freqLoop_stop c5inp 0 0 0 c_mt 1 1 c5_fl c5_fr 1 (1 - c5_dt / c5T) 0 c5_dt 0 0 0 (0 + 1)
    _ _ (by intro hcon; rw [c5_nf] at hcon; omega)]
  rw [crossWrite]
  rw [if_pos (show crossNewz c5_t0 c5_fl c5_fr 1 (1 - c5_dt / c5T) > 0 from c5_newz_bounds.1)]
  rfl

lemma c5_run_rf : (dynamic_binary_number_at_fobs c5inp).rf 0 0 0 0 = some c5_newz := by
  rw [c5_stageB, c5_kkloop, c5_go_eval]
  show (freqLoop c5inp 0 0 0 c_mt 1 1 c5_fl c5_fr 1 (1 - c5_dt / c5T) 0 c5_dt 0 0 (1 + 1)
     0 c5_t0 initialFields).rf 0 0 0 0 = some c5_newz
  rw [c5_freq_eval]
  show set4 initialFields.rf 0 0 0 0 (some c5_newz) 0 0 0 0 = some c5_newz
  rw [set4]
  rw [if_pos ⟨by norm_num, by norm_num, by norm_num, by norm_num⟩]

lemma c5_run_dn : (dynamic_binary_number_at_fobs c5inp).dn 0 0 0 0 =
    some (c5inp.dens 0 0 0 * crossingTres c5inp c_mt 1 1 c5_t0 c5_newz *
      crossingFact c5_newz (crossingDcom c5inp c5_t0 c5_fl c5_fr 0 c5_dt 0 0)) := by
  rw [c5_stageB, c5_kkloop, c5_go_eval]
  show (freqLoop c5inp 0 0 0 c_mt 1 1 c5_fl c5_fr 1 (1 - c5_dt / c5T) 0 c5_dt 0 0 (1 + 1)
    0 c5_t0 initialFields).dn 0 0 0 0 = _
  rw [c5_freq_eval]
  show set4 initialFields.dn 0 0 0 0 (some (c5inp.dens 0 0 0 *
      crossingTres c5inp c_mt 1 1 c5_t0 c5_newz *
      crossingFact c5_newz (crossingDcom c5inp c5_t0 c5_fl c5_fr 0 c5_dt 0 0))) 0 0 0 0 = _
  rw [set4]
  rw [if_pos ⟨by norm_num, by norm_num, by norm_num, by norm_num⟩]

lemma c5_mrat (z : ℤ) : c5inp.mrat z = 1 := rfl

lemma c5_hnorm (y z : ℤ) : c5inp.hard_norm y z = 1 := rfl

/-- C5 counterexample: with a degenerate single-edge `TargetFrequencyEdges`
array (`nf = 1`) the Mapper *does* record a crossing — the inner loop guard only
requires `ff < nf` — so the output fields are not entirely sentinel. -/
theorem C5_counterexample :
    c5inp.nf = 1 ∧ (dynamic_binary_number_at_fobs c5inp).rf 0 0 0 0 ≠ none := by
  refine ⟨rfl, ?_⟩
  rw [c5_run_rf]
  simp

/-- Witness for the amended C5: any input with an empty target array, e.g.
`c4inp` (which has `nf = 0`), keeps the output fields exactly as initialized. -/
theorem C5_witness :
    c4inp.nf = 0 ∧ dynamic_binary_number_at_fobs c4inp = initialFields :=
  ⟨rfl, C5_amended_empty_edges c4inp rfl⟩

/-! ### Claim C2: the differential-number value written at a crossing -/

/-- The value asserted by claim C2 for a recorded crossing, following the claim's
words: stationary density times residence time `τ = -(2/3)·sepa/(da/dt)` — with
the hardening rate re-evaluated at the separation obtained by inverting Kepler's
law at rest-frame frequency `ftemp·(1+newz)` — times the claimed cosmological
factor `4π·c·(1+newz)·D_comoving²/Mpc²`.  `dcomv` is the comoving distance at
the crossing; for an input whose comoving-distance grid is constant, every
interpolation between step-edge values equals that constant. -/
def C2_claim_value (inp : MapInputs) (a b c d : ℤ) (z dcomv : ℝ) : ℝ :=
  inp.dens a b c *
    (-(2 / 3) * kepler_sepa_from_freq (inp.mtot a) (inp.target d * (1 + z)) /
      hard_func_2pwl_gw (inp.mtot a) (inp.mrat b)
        (kepler_sepa_from_freq (inp.mtot a) (inp.target d * (1 + z)))
        (inp.hard_norm a b) inp.rchar inp.gi inp.go) *
    (4 * π * MY_SPLC * (1 + z) * dcomv ^ (2 : ℕ) / MY_MPC ^ (2 : ℕ))

/-- Claim C2 as stated, for an input with constant comoving-distance grid value
`dcomv`: every recorded crossing's `diff_num` entry equals the claimed product. -/
def C2_claim_property (inp : MapInputs) (dcomv : ℝ) : Prop :=
  ∀ a b c d : ℤ, ∀ z : ℝ, (dynamic_binary_number_at_fobs inp).rf a b c d = some z →
    (dynamic_binary_number_at_fobs inp).dn a b c d = some (C2_claim_value inp a b c d z dcomv)

lemma c5_dcom : crossingDcom c5inp c5_t0 c5_fl c5_fr 0 c5_dt 0 0 = MY_MPC := by
  rw [crossingDcom, interp_at_index, interp_at_index, interp_between_vals]
  simp only [c5_dcomg]
  rw [sub_self]
  norm_num

lemma c5_t0_pos : 0 < c5_t0 := by
  rw [c5_t0]
  have h1 := c5_Cs_pos
  have h2 := c5_A_bounds.1
  have h3 : (0 : ℝ) < KEPLER_CONST_FREQ * Real.sqrt c_mt * ((10 : ℝ) ^ (-(1.5 : ℝ)) + 1) :=
    mul_pos h1 (by linarith)
  linarith

lemma c5_tres_pos : 0 < crossingTres c5inp c_mt 1 1 c5_t0 c5_newz := by
  rw [crossingTres]
  have hs : 0 < crossingSepa c_mt c5_t0 c5_newz := by
    rw [crossingSepa]
    apply kepler_sepa_pos c_mt_pos
    have h1 := c5_newz_bounds.1
    have h2 := c5_t0_pos
    nlinarith
  have hh : hard_func_2pwl_gw c_mt 1 (crossingSepa c_mt c5_t0 c5_newz) 1 c5inp.rchar
      c5inp.gi c5inp.go < 0 :=
    hard_rate_neg c_mt_pos (by norm_num) hs (by norm_num)
      (by show (0 : ℝ) < 1; norm_num)
  exact div_pos_iff.mpr (Or.inr ⟨by nlinarith [hs], hh⟩)

lemma c5_fact_lt :
    crossingFact c5_newz MY_MPC <
      4 * π * MY_SPLC * (1 + c5_newz) * MY_MPC ^ (2 : ℕ) / MY_MPC ^ (2 : ℕ) := by
  rw [crossingFact, FOUR_PI_SPLC_OVER_MPC]
  have hM : (1 : ℝ) < MY_MPC := by norm_num [MY_MPC]
  have hz := c5_newz_bounds.1
  have hpi := Real.pi_pos
  have hc := MY_SPLC_pos
  have hne : MY_MPC ≠ 0 := by linarith
  rw [div_self hne, one_pow, mul_one]
  have hR : 4 * π * MY_SPLC * (1 + c5_newz) * MY_MPC ^ (2 : ℕ) / MY_MPC ^ (2 : ℕ) =
      4 * π * MY_SPLC * (1 + c5_newz) := by
    field_simp
  rw [hR]
  have ha : 0 < 4 * π * MY_SPLC * (1 + c5_newz) := by
    have h1 : (0 : ℝ) < 4 * π := by linarith
    have h2 : (0 : ℝ) < 4 * π * MY_SPLC := mul_pos h1 hc
    exact mul_pos h2 (by linarith)
  rw [div_mul_eq_mul_div]
  exact div_lt_self ha hM

lemma c5_claim_val :
    C2_claim_value c5inp 0 0 0 0 c5_newz MY_MPC =
      crossingTres c5inp c_mt 1 1 c5_t0 c5_newz *
        (4 * π * MY_SPLC * (1 + c5_newz) * MY_MPC ^ (2 : ℕ) / MY_MPC ^ (2 : ℕ)) := by
  rw [C2_claim_value, crossingTres, crossingSepa]
  rw [c5_dens, c5_mtot, c5_target, c5_mrat, c5_hnorm]
  ring

/-- C2 counterexample: for the concrete input `c5inp` (constant comoving-distance
grid equal to `MY_MPC`, so the interpolated crossing `D_comoving` is exactly
`MY_MPC`), the recorded `diff_num` entry does *not* equal the claimed
`dens·τ·4π·c·(1+newz)·D_comoving²/Mpc²`: the code multiplies by
`FOUR_PI_SPLC_OVER_MPC·(1+newz)·(dcom/Mpc)²`, which is smaller by a factor
`1/Mpc`. -/
theorem C2_counterexample : ¬ C2_claim_property c5inp MY_MPC := by
  intro h
  have h0 := h 0 0 0 0 c5_newz c5_run_rf
  rw [c5_run_dn] at h0
  have hv : c5inp.dens 0 0 0 * crossingTres c5inp c_mt 1 1 c5_t0 c5_newz *
      crossingFact c5_newz (crossingDcom c5inp c5_t0 c5_fl c5_fr 0 c5_dt 0 0) =
      C2_claim_value c5inp 0 0 0 0 c5_newz MY_MPC := Option.some_inj.mp h0
  rw [c5_dcom, c5_dens, one_mul, c5_claim_val] at hv
  have h1 := c5_tres_pos
  have h2 := c5_fact_lt
  nlinarith [mul_lt_mul_of_pos_left h2 h1]

lemma freqLoop_low (inp : MapInputs) (i j k : ℕ) (mt mr norm fl fr zl zr tl tr : ℝ)
    (il ir : ℕ) :
    ∀ (fuel ff : ℕ) (ftemp : ℝ) (flds : Fields) (d : ℤ), d < (ff : ℤ) →
      (freqLoop inp i j k mt mr norm fl fr zl zr tl tr il ir fuel ff ftemp flds).rf i j k d =
        flds.rf i j k d ∧
      (freqLoop inp i j k mt mr norm fl fr zl zr tl tr il ir fuel ff ftemp flds).dn i j k d =
        flds.dn i j k d := by
  intro fuel
  induction fuel with
  | zero =>
    intro ff ftemp flds d _
    rw [freqLoop]
    exact ⟨rfl, rfl⟩
  | succ f ih =>
    intro ff ftemp flds d hd
    by_cases hc : fl < ftemp ∧ ftemp < fr ∧ ff < inp.nf
    · rw [freqLoop_step inp i j k mt mr norm fl fr zl zr tl tr il ir f ff ftemp flds hc]
      have hrec := ih (ff + 1) (if ff + 1 < inp.nf then inp.target ((ff : ℤ) + 1) else ftemp)
        (crossWrite inp i j k ff mt mr norm ftemp fl fr zl zr tl tr il ir flds) d
        (by push_cast; omega)
      have hcw : (crossWrite inp i j k ff mt mr norm ftemp fl fr zl zr tl tr il ir
          flds).rf i j k d = flds.rf i j k d ∧
          (crossWrite inp i j k ff mt mr norm ftemp fl fr zl zr tl tr il ir
          flds).dn i j k d = flds.dn i j k d := by
        rw [crossWrite]
        by_cases hz : crossNewz ftemp fl fr zl zr > 0
        · rw [if_pos hz]
          have hne : ¬((i : ℤ) = (i : ℤ) ∧ (j : ℤ) = (j : ℤ) ∧ (k : ℤ) = (k : ℤ) ∧
              d = (ff : ℤ)) := by
            intro hcon
            omega
          constructor
          · show set4 flds.rf i j k ff _ i j k d = _
            rw [set4, if_neg hne]
          · show set4 flds.dn i j k ff _ i j k d = _
            rw [set4, if_neg hne]
        · rw [if_neg hz]
          exact ⟨rfl, rfl⟩
      exact ⟨hrec.1.trans hcw.1, hrec.2.trans hcw.2⟩
    · rw [freqLoop_stop inp i j k mt mr norm fl fr zl zr tl tr il ir f ff ftemp flds hc]
      exact ⟨rfl, rfl⟩

/-- C2 amended: whenever the Mapper records a crossing with `newz > 0` at a cell,
the `diff_num` entry written there equals `dens` times the residence time
`τ = -(2/3)·sepa/(da/dt)` — with the hardening rate re-evaluated at the crossing
separation obtained by inverting Kepler's law at rest-frame frequency
`ftemp·(1+newz)` — times the cosmological factor
`FOUR_PI_SPLC_OVER_MPC·(1+newz)·(D_comoving/Mpc)²` (i.e.
`4π·c·(1+newz)·D_comoving²/Mpc³`, one factor of Mpc more in the denominator than
the claim's `/Mpc²`), with `D_comoving` interpolated at the crossing frequency
between the left and right step-edge comoving distances. -/
theorem C2_amended_written_value (inp : MapInputs) (i j k : ℕ)
    (mt mr norm fl fr zl zr tl tr : ℝ) (il ir : ℕ) (fuel ff : ℕ) (flds : Fields)
    (hg : fl < inp.target ff ∧ inp.target ff < fr ∧ ff < inp.nf)
    (hz : 0 < crossNewz (inp.target ff) fl fr zl zr) :
    (freqLoop inp i j k mt mr norm fl fr zl zr tl tr il ir (fuel + 1) ff (inp.target ff)
        flds).rf i j k ff = some (crossNewz (inp.target ff) fl fr zl zr) ∧
    (freqLoop inp i j k mt mr norm fl fr zl zr tl tr il ir (fuel + 1) ff (inp.target ff)
        flds).dn i j k ff =
      some (inp.dens i j k *
        crossingTres inp mt mr norm (inp.target ff) (crossNewz (inp.target ff) fl fr zl zr) *
        crossingFact (crossNewz (inp.target ff) fl fr zl zr)
          (crossingDcom inp (inp.target ff) fl fr tl tr il ir)) := by
  rw [freqLoop_step inp i j k mt mr norm fl fr zl zr tl tr il ir fuel ff (inp.target ff)
    flds hg]
  have hlow := freqLoop_low inp i j k mt mr norm fl fr zl zr tl tr il ir fuel (ff + 1)
    (if ff + 1 < inp.nf then inp.target ((ff : ℤ) + 1) else inp.target ff)
    (crossWrite inp i j k ff mt mr norm (inp.target ff) fl fr zl zr tl tr il ir flds)
    (ff : ℤ) (by push_cast; omega)
  rw [hlow.1, hlow.2, crossWrite, if_pos hz]
  constructor
  · show set4 flds.rf i j k ff _ i j k ff = _
    rw [set4, if_pos ⟨rfl, rfl, rfl, rfl⟩]
  · show set4 flds.dn i j k ff _ i j k ff = _
    rw [set4, if_pos ⟨rfl, rfl, rfl, rfl⟩]

/-- Witness for the amended C2 at concrete loop inputs (`c9inp`, whose single
target edge is 0, with `fobs_left = -1`, `fobs_right = 1`, `redz = 1` at both
edges, giving `newz = 1`). -/
theorem C2_witness :
    ((-1 : ℝ) < c9inp.target 0 ∧ c9inp.target 0 < 1 ∧ 0 < c9inp.nf) ∧
    0 < crossNewz (c9inp.target 0) (-1) 1 1 1 ∧
    (freqLoop c9inp 0 0 0 1 1 1 (-1) 1 1 1 0 0 0 0 (0 + 1) 0 (c9inp.target 0)
      initialFields).rf 0 0 0 0 = some (crossNewz (c9inp.target 0) (-1) 1 1 1) := by
  have hg : (-1 : ℝ) < c9inp.target 0 ∧ c9inp.target 0 < 1 ∧ (0 : ℕ) < c9inp.nf := by
    refine ⟨?_, ?_, ?_⟩
    · show (-1 : ℝ) < 0; norm_num
    · show (0 : ℝ) < 1; norm_num
    · show (0 : ℕ) < 1; norm_num
  have hz : 0 < crossNewz (c9inp.target 0) (-1) 1 1 1 := by
    rw [crossNewz, interp_between_vals]
    show (0 : ℝ) < 1 + (1 - 1) * (0 - -1) / (1 - -1)
    norm_num
  exact ⟨hg, hz,
    (C2_amended_written_value c9inp 0 0 0 1 1 1 (-1) 1 1 1 0 0 0 0 0 0 initialFields hg hz).1⟩

/-! ### Claim C7: the frequency `break` across redshift bins -/

/-- Age of the universe in the C7 counterexample run. -/
def c7T : ℝ := 100

/-- The single target frequency edge of the C7 run. -/
def c7_t0 : ℝ := KEPLER_CONST_FREQ * Real.sqrt c_mt * (10 : ℝ) ^ (-(1.5 : ℝ)) / 3

/-- Concrete mapper input with two starting-redshift bins (`redz = [5, 10]`)
whose galaxy-merger times (`gmt = [0, 90]`) are strongly non-monotonic: the
higher-redshift bin (processed first) has a large GMT, so its `fobs_left` is
high and triggers the break; the lower-redshift bin would have recorded a
crossing. -/
def c7inp : MapInputs :=
  ⟨1, 1, 1, 2, 2, fun _ => c7_t0, fun _ _ => 1, 1, 1, 1, fun _ _ _ => 1, fun _ => c_mt,
    fun _ => 1, fun z => if z = 0 then 5 else 10, fun _ _ z => if z = 0 then 0 else 90, 10, 1,
    fun n => if n = 0 then 10 else 0, fun _ => MY_MPC, fun n => if n = 0 then 0 else c7T⟩

lemma c7_mtot (z : ℤ) : c7inp.mtot z = c_mt := rfl

lemma c7_mrat (z : ℤ) : c7inp.mrat z = 1 := rfl

lemma c7_hnorm (y z : ℤ) : c7inp.hard_norm y z = 1 := rfl

lemma c7_sepa_init : c7inp.sepa_init = 10 := rfl

lemma c7_nsteps : c7inp.nsteps = 1 := rfl

lemma c7_nm : c7inp.nm = 1 := rfl

lemma c7_nq : c7inp.nq = 1 := rfl

lemma c7_nz : c7inp.nz = 2 := rfl

lemma c7_nf : c7inp.nf = 1 := rfl

lemma c7_ninterp : c7inp.ninterp = 2 := rfl

lemma c7_rchar : c7inp.rchar = 1 := rfl

lemma c7_gi : c7inp.gi = 1 := rfl

lemma c7_go : c7inp.go = 1 := rfl

lemma c7_target (z : ℤ) : c7inp.target z = c7_t0 := rfl

lemma c7_tage (z : ℤ) : c7inp.tage z = if z = 0 then 0 else c7T := rfl

lemma c7_rig (z : ℤ) : c7inp.rig z = if z = 0 then 10 else 0 := rfl

lemma c7_redz (z : ℤ) : c7inp.redz z = if z = 0 then 5 else 10 := rfl

lemma c7_gmt (x y z : ℤ) : c7inp.gmt x y z = if z = 0 then 0 else 90 := rfl

lemma c7_dcomg (z : ℤ) : c7inp.dcomg z = MY_MPC := rfl

lemma c7_ageSearch (zv : ℝ) (hz : 0 ≤ zv) :
    ageSearch c7inp.rig zv c7inp.ninterp c7inp.ninterp 0 = 0 := by
  show ageSearch c7inp.rig zv 2 2 0 = 0
  rw [ageSearch, if_neg]
  intro hcon
  have h1 := hcon.1
  rw [show ((0 : ℕ) : ℤ) + 1 = 1 by norm_num, c7_rig] at h1
  norm_num at h1
  linarith

lemma c7_redzAge0 : redzAgeArr c7inp 0 = 50 := by
  show redzAgeAux c7inp 2 0 (fun _ => 0) 0 = 50
  rw [redzAgeAux, redzAgeAux, redzAgeAux]
  have ha1 : ageSearch c7inp.rig (c7inp.redz ((1 : ℕ) : ℤ)) c7inp.ninterp c7inp.ninterp 0 = 0 :=
    c7_ageSearch _ (by rw [c7_redz]; norm_num)
  have ha0 : ageSearch c7inp.rig (c7inp.redz ((0 : ℕ) : ℤ)) c7inp.ninterp c7inp.ninterp 0 = 0 :=
    c7_ageSearch _ (by rw [c7_redz]; norm_num)
  simp only [ha1, ha0]
  simp only [Nat.cast_zero, Nat.cast_one]
  norm_num [interp_at_index, c7_redz, c7_rig, c7_tage, c7T]

lemma c7_redzAge1 : redzAgeArr c7inp 1 = 0 := by
  show redzAgeAux c7inp 2 0 (fun _ => 0) 1 = 0
  rw [redzAgeAux, redzAgeAux, redzAgeAux]
  have ha1 : ageSearch c7inp.rig (c7inp.redz ((1 : ℕ) : ℤ)) c7inp.ninterp c7inp.ninterp 0 = 0 :=
    c7_ageSearch _ (by rw [c7_redz]; norm_num)
  have ha0 : ageSearch c7inp.rig (c7inp.redz ((0 : ℕ) : ℤ)) c7inp.ninterp c7inp.ninterp 0 = 0 :=
    c7_ageSearch _ (by rw [c7_redz]; norm_num)
  simp only [ha1, ha0]
  simp only [Nat.cast_zero, Nat.cast_one]
  norm_num [interp_at_index, c7_redz, c7_rig, c7_tage, c7T]

lemma c7_age : age_universe c7inp = c7T := by
  rw [age_universe, c7_ninterp, c7_tage]
  norm_num

lemma c7_hard_at (s : ℝ) : hard_func_2pwl_gw c_mt 1 s 1 c7inp.rchar c7inp.gi c7inp.go
    = -1 + GW_DADT_SEP_CONST * c_mt ^ (3 : ℕ) / 4 / s ^ (3 : ℕ) := by
  rw [c7_rchar, c7_gi, c7_go, hard_eval_one]
  ring

lemma c7_hard10 : hard_func_2pwl_gw c_mt 1 10 1 c7inp.rchar c7inp.gi c7inp.go
    = -1 + cG / 1000 := by
  rw [c7_hard_at, cG]
  norm_num

lemma c7_hard1 : hard_func_2pwl_gw c_mt 1 1 1 c7inp.rchar c7inp.gi c7inp.go = -1 + cG := by
  rw [c7_hard_at, cG]
  norm_num

lemma c7_dx : (Real.logb 10 c7inp.sepa_init - Real.logb 10 (3 * MY_SCHW * c7inp.mtot 0)) /
    (c7inp.nsteps : ℝ) = 1 := by
  rw [c7_sepa_init, c7_mtot, three_schw_c_mt, c7_nsteps]
  rw [Real.logb_self_eq_one (by norm_num : (1 : ℝ) < 10), Real.logb_one]
  norm_num

lemma c7_st : pairInit c7inp c_mt 1 1 initialFields =
    ⟨1, 10, -1 + cG / 1000, kepler_freq_from_sepa c_mt 10, 0, 0, 0, initialFields⟩ := by
  have h1 : Real.logb 10 c7inp.sepa_init = 1 := by
    rw [c7_sepa_init]
    exact Real.logb_self_eq_one (by norm_num)
  have h2 : (10 : ℝ) ^ (Real.logb 10 c7inp.sepa_init) = 10 := by
    rw [h1, Real.rpow_one]
  show (⟨Real.logb 10 c7inp.sepa_init, (10 : ℝ) ^ (Real.logb 10 c7inp.sepa_init),
      hard_func_2pwl_gw c_mt 1 ((10 : ℝ) ^ (Real.logb 10 c7inp.sepa_init)) 1 c7inp.rchar
        c7inp.gi c7inp.go,
      kepler_freq_from_sepa c_mt ((10 : ℝ) ^ (Real.logb 10 c7inp.sepa_init)), 0, 0, 0,
      initialFields⟩ : PairState) = _
  rw [h2, h1, c7_hard10]

lemma c7_stepdt :
    stepDt c7inp c_mt 1 1 1
      ⟨1, 10, -1 + cG / 1000, kepler_freq_from_sepa c_mt 10, 0, 0, 0, initialFields⟩ =
    c5_dt := by
  show 2 * ((10 : ℝ) ^ ((1 : ℝ) - 1) - 10) /
    ((-1 + cG / 1000) +
      hard_func_2pwl_gw c_mt 1 ((10 : ℝ) ^ ((1 : ℝ) - 1)) 1 c7inp.rchar c7inp.gi c7inp.go) =
      c5_dt
  rw [c5_pow0, c7_hard1, c5_dt]

lemma c7_stageA :
    dynamic_binary_number_at_fobs c7inp =
      (stepAcc c7inp 0 0 c_mt 1 1 1 (pairInit c7inp c_mt 1 1 initialFields)).flds := by
  rw [dynamic_binary_number_at_fobs, _dynamic_binary_number_at_fobs, c7_nm, c7_nq]
  simp only [List.range_succ, List.range_zero, List.nil_append, List.foldl_cons,
    List.foldl_nil]
  show (pairIter c7inp 0 0 initialFields c7inp.nsteps).flds = _
  rw [c7_nsteps, pairIter_succ]
  show (stepAcc c7inp 0 0 c_mt 1 1
      ((Real.logb 10 c7inp.sepa_init - Real.logb 10 (3 * MY_SCHW * c7inp.mtot 0)) /
        (c7inp.nsteps : ℝ)) (pairInit c7inp c_mt 1 1 initialFields)).flds =
    (stepAcc c7inp 0 0 c_mt 1 1 1 (pairInit c7inp c_mt 1 1 initialFields)).flds
  rw [c7_dx]

lemma c7_stageB :
    dynamic_binary_number_at_fobs c7inp =
      (kkLoop c7inp 0 0 c_mt 1 1 c5_dt (0 + c5_dt) (kepler_freq_from_sepa c_mt 10)
        (kepler_freq_from_sepa c_mt 1) 1 ⟨0, 0, initialFields⟩).flds := by
  rw [c7_stageA, c7_st, stepAcc, if_neg (by rw [c7_nz]; norm_num)]
  show (kkLoop c7inp 0 0 c_mt 1 1
      (stepDt c7inp c_mt 1 1 1
        ⟨1, 10, -1 + cG / 1000, kepler_freq_from_sepa c_mt 10, 0, 0, 0, initialFields⟩)
      (0 + stepDt c7inp c_mt 1 1 1
        ⟨1, 10, -1 + cG / 1000, kepler_freq_from_sepa c_mt 10, 0, 0, 0, initialFields⟩)
      (kepler_freq_from_sepa c_mt 10)
      (kepler_freq_from_sepa c_mt ((10 : ℝ) ^ ((1 : ℝ) - 1))) (c7inp.nz - 1)
      ⟨0, 0, initialFields⟩).flds = _
  rw [c7_stepdt, c5_pow0, c7_nz]

lemma c7_tl1 : timeLeftFn c7inp 0 0 1 (0 + c5_dt) c5_dt = 90 := by
  rw [timeLeftFn]
  simp only [Nat.cast_zero, Nat.cast_one]
  rw [c7_gmt, c7_redzAge1]
  norm_num

lemma c7_tl0 : timeLeftFn c7inp 0 0 0 (0 + c5_dt) c5_dt = 50 := by
  rw [timeLeftFn]
  simp only [Nat.cast_zero]
  rw [c7_gmt, c7_redzAge0]
  norm_num

lemma c7_tr0 : timeRightFn c7inp 0 0 0 (0 + c5_dt) = 50 + c5_dt := by
  rw [timeRightFn]
  simp only [Nat.cast_zero]
  rw [c7_gmt, c7_redzAge0]
  norm_num
  ring

lemma c7_ww_tage (v : ℝ) (hv : v ≤ 100) : while_while 0 2 v c7inp.tage = 0 := by
  rw [while_while]
  have hup : while_up c7inp.tage 2 v 2 0 = 0 := by
    rw [while_up, if_neg]
    intro hcon
    have h2 := hcon.2
    rw [show ((0 : ℕ) : ℤ) + 1 = 1 by norm_num, c7_tage] at h2
    norm_num [c7T] at h2
    linarith
  rw [hup, while_down, if_neg]
  intro hcon
  exact absurd hcon.1 (by norm_num)

lemma c7_interpLeft90 : interpLeftIdx c7inp 0 90 = 0 := by
  rw [interpLeftIdx, c7_ninterp]
  exact c7_ww_tage 90 (by norm_num)

lemma c7_interpLeft50 : interpLeftIdx c7inp 0 50 = 0 := by
  rw [interpLeftIdx, c7_ninterp]
  exact c7_ww_tage 50 (by norm_num)

lemma c7_interpRight50 : interpRightIdx c7inp 0 50 = 0 := by
  rw [interpRightIdx, c7_interpLeft50, c7_ninterp]
  exact c7_ww_tage 50 (by norm_num)

lemma c7_redzLeft90 : redzLeftFn c7inp 0 90 = 1 := by
  rw [redzLeftFn, c7_interpLeft90, interp_at_index]
  simp only [Nat.cast_zero]
  rw [c7_tage, c7_tage, c7_rig, c7_rig]
  norm_num [c7T]

lemma c7_redzLeft50 : redzLeftFn c7inp 0 50 = 5 := by
  rw [redzLeftFn, c7_interpLeft50, interp_at_index]
  simp only [Nat.cast_zero]
  rw [c7_tage, c7_tage, c7_rig, c7_rig]
  norm_num [c7T]

lemma c7_redzRight50 : redzRightFn c7inp 0 50 (50 + c5_dt) = 5 - c5_dt / 10 := by
  rw [redzRightFn, c7_interpRight50, interp_at_index]
  simp only [Nat.cast_zero]
  rw [c7_tage, c7_tage, c7_rig, c7_rig]
  norm_num [c7T]
  ring

/-- The observed left-edge frequency the C7 run computes at the (first-processed)
highest-redshift bin `kk = 1`. -/
def c7_fl1 : ℝ := kepler_freq_from_sepa c_mt 10 / (1 + 1)

/-- The observed left-edge frequency at the lower-redshift bin `kk = 0`. -/
def c7_fl0 : ℝ := kepler_freq_from_sepa c_mt 10 / (1 + 5)

/-- The observed right-edge frequency at bin `kk = 0`. -/
def c7_fr0 : ℝ := kepler_freq_from_sepa c_mt 1 / (1 + (5 - c5_dt / 10))

/-- The crossing redshift the Mapper would record at bin `kk = 0`. -/
def c7_newz : ℝ := crossNewz c7_t0 c7_fl0 c7_fr0 5 (5 - c5_dt / 10)

lemma c7_fobsLeft90 : fobsLeftFn c7inp 0 90 (kepler_freq_from_sepa c_mt 10) = c7_fl1 := by
  rw [fobsLeftFn, c7_redzLeft90, c7_fl1]

lemma c7_fobsLeft50 : fobsLeftFn c7inp 0 50 (kepler_freq_from_sepa c_mt 10) = c7_fl0 := by
  rw [fobsLeftFn, c7_redzLeft50, c7_fl0]

lemma c7_fobsRight50 :
    fobsRightFn c7inp 0 50 (50 + c5_dt) (kepler_freq_from_sepa c_mt 1) = c7_fr0 := by
  rw [fobsRightFn, c7_redzRight50, c7_fr0]

lemma c7_A_small : (10 : ℝ) ^ (-(1.5 : ℝ)) < 1 / 10 := by
  have h : (10 : ℝ) ^ (-(1.5 : ℝ)) < (10 : ℝ) ^ (-(1 : ℝ)) :=
    (Real.rpow_lt_rpow_left_iff (by norm_num)).mpr (by norm_num)
  rw [Real.rpow_neg_one] at h
  linarith [h]

lemma c7_freq_bounds : c7_fl0 < c7_t0 ∧ c7_t0 < c7_fr0 ∧ c7_fl0 < c7_fl1 ∧ c7_fl1 > c7_t0 := by
  have hCs := c5_Cs_pos
  have hA := c5_A_bounds
  have hA2 := c7_A_small
  have hd := c5_dt_bounds
  have hCsA : 0 < KEPLER_CONST_FREQ * Real.sqrt c_mt * (10 : ℝ) ^ (-(1.5 : ℝ)) :=
    mul_pos hCs hA.1
  have hfl0 : c7_fl0 = KEPLER_CONST_FREQ * Real.sqrt c_mt * (10 : ℝ) ^ (-(1.5 : ℝ)) / 6 := by
    rw [c7_fl0, c5_kf10]; norm_num
  have hfl1 : c7_fl1 = KEPLER_CONST_FREQ * Real.sqrt c_mt * (10 : ℝ) ^ (-(1.5 : ℝ)) / 2 := by
    rw [c7_fl1, c5_kf10]; norm_num
  have hfr0 : c7_fr0 = KEPLER_CONST_FREQ * Real.sqrt c_mt / (6 - c5_dt / 10) := by
    rw [c7_fr0, c5_kf1]; ring_nf
  refine ⟨?_, ?_, ?_, ?_⟩
  · rw [hfl0, c7_t0]
    linarith
  · rw [hfr0, c7_t0]
    rw [div_lt_div_iff (by norm_num) (by nlinarith [hd.1, hd.2])]
    nlinarith [hCs, hA.1, hA2, hd.1, hd.2]
  · rw [hfl0, hfl1]
    linarith
  · rw [hfl1, c7_t0]
    linarith

lemma c7_newz_pos : 0 < c7_newz := by
  have hf := c7_freq_bounds
  have hd := c5_dt_bounds
  have hfrfl : 0 < c7_fr0 - c7_fl0 := by linarith [hf.1, hf.2.1]
  have hth1 : 0 < (c7_t0 - c7_fl0) / (c7_fr0 - c7_fl0) := div_pos (by linarith [hf.1]) hfrfl
  have hth2 : (c7_t0 - c7_fl0) / (c7_fr0 - c7_fl0) < 1 :=
    (div_lt_one hfrfl).mpr (by linarith [hf.2.1])
  have hz : c7_newz = 5 - (c5_dt / 10) * ((c7_t0 - c7_fl0) / (c7_fr0 - c7_fl0)) := by
    rw [c7_newz, crossNewz, interp_between_vals]
    ring
  rw [hz]
  nlinarith [hd.1, hd.2, hth1, hth2]

lemma c7_break :
    kkLoop c7inp 0 0 c_mt 1 1 c5_dt (0 + c5_dt) (kepler_freq_from_sepa c_mt 10)
      (kepler_freq_from_sepa c_mt 1) 1 ⟨0, 0, initialFields⟩ =
    ⟨interpLeftIdx c7inp 0 (timeLeftFn c7inp 0 0 1 (0 + c5_dt) c5_dt), 0, initialFields⟩ := by
  apply kkLoop_of_true
  apply processKK_break
  · rw [c7_tl1, c7_age]
    norm_num [c7T]
  · show fobsLeftFn c7inp 0 (timeLeftFn c7inp 0 0 1 (0 + c5_dt) c5_dt)
      (kepler_freq_from_sepa c_mt 10) > c7inp.target ((c7inp.nf : ℤ) - 1)
    rw [c7_tl1, c7_fobsLeft90, c7_target]
    exact c7_freq_bounds.2.2.2

lemma c7_run_rf : (dynamic_binary_number_at_fobs c7inp).rf 0 0 0 0 = none := by
  rw [c7_stageB, c7_break]
  rfl

lemma c7_ww_size1 (v : ℝ) (edges : ℤ → ℝ) : while_while 0 1 v edges = 0 := by
  rw [while_while]
  have hup : while_up edges 1 v 1 0 = 0 := by
    rw [while_up, if_neg]
    intro hcon
    exact absurd hcon.1 (by norm_num)
  rw [hup, while_down, if_neg]
  intro hcon
  exact absurd hcon.1 (by norm_num)

lemma c7_go0 :
    processKK c7inp 0 0 c_mt 1 1 c5_dt (0 + c5_dt) (kepler_freq_from_sepa c_mt 10)
      (kepler_freq_from_sepa c_mt 1) 0 ⟨0, 0, initialFields⟩ =
    (processKKgo c7inp 0 0 0 c_mt 1 1 (kepler_freq_from_sepa c_mt 10)
      (kepler_freq_from_sepa c_mt 1) 50 (50 + c5_dt) ⟨0, 0, initialFields⟩, false) := by
  have h1 : ¬ timeLeftFn c7inp 0 0 0 (0 + c5_dt) c5_dt > age_universe c7inp := by
    rw [c7_tl0, c7_age]
    norm_num [c7T]
  have h2 : ¬ fobsLeftFn c7inp (0 : ℕ) (timeLeftFn c7inp 0 0 0 (0 + c5_dt) c5_dt)
      (kepler_freq_from_sepa c_mt 10) > c7inp.target ((c7inp.nf : ℤ) - 1) := by
    rw [c7_tl0, c7_fobsLeft50, c7_target]
    exact not_lt.mpr (le_of_lt c7_freq_bounds.1)
  rw [processKK_go c7inp 0 0 c_mt 1 1 c5_dt (0 + c5_dt) (kepler_freq_from_sepa c_mt 10)
    (kepler_freq_from_sepa c_mt 1) 0 ⟨0, 0, initialFields⟩ h1 h2]
  rw [c7_tl0, c7_tr0]

lemma c7_go0_eval :
    processKKgo c7inp 0 0 0 c_mt 1 1 (kepler_freq_from_sepa c_mt 10)
      (kepler_freq_from_sepa c_mt 1) 50 (50 + c5_dt) ⟨0, 0, initialFields⟩ =
    ⟨0, 0, freqLoop c7inp 0 0 0 c_mt 1 1 c7_fl0 c7_fr0 5 (5 - c5_dt / 10) 50 (50 + c5_dt)
      0 0 (1 + 1) 0 c7_t0 initialFields⟩ := by
  show (⟨interpLeftIdx c7inp 0 50,
      while_while 0 c7inp.nf (fobsLeftFn c7inp 0 50 (kepler_freq_from_sepa c_mt 10))
        c7inp.target,
      freqLoop c7inp 0 0 0 c_mt 1 1
        (fobsLeftFn c7inp 0 50 (kepler_freq_from_sepa c_mt 10))
        (fobsRightFn c7inp 0 50 (50 + c5_dt) (kepler_freq_from_sepa c_mt 1))
        (redzLeftFn c7inp 0 50) (redzRightFn c7inp 0 50 (50 + c5_dt)) 50 (50 + c5_dt)
        (interpLeftIdx c7inp 0 50) (interpRightIdx c7inp 0 50) (c7inp.nf + 1)
        (while_while 0 c7inp.nf (fobsLeftFn c7inp 0 50 (kepler_freq_from_sepa c_mt 10))
          c7inp.target)
        (c7inp.target ((while_while 0 c7inp.nf
          (fobsLeftFn c7inp 0 50 (kepler_freq_from_sepa c_mt 10)) c7inp.target : ℕ) : ℤ))
        initialFields⟩ : KAcc) = _
  rw [c7_fobsLeft50, c7_fobsRight50, c7_redzLeft50, c7_redzRight50, c7_interpLeft50,
    c7_interpRight50, c7_nf, c7_ww_size1, c7_target]

lemma c7_freq_eval :
    (freqLoop c7inp 0 0 0 c_mt 1 1 c7_fl0 c7_fr0 5 (5 - c5_dt / 10) 50 (50 + c5_dt)
      0 0 (1 + 1) 0 c7_t0 initialFields).rf 0 0 0 0 = some c7_newz := by
  have hb := c7_freq_bounds
  rw [freqLoop_step c7inp 0 0 0 c_mt 1 1 c7_fl0 c7_fr0 5 (5 - c5_dt / 10) 50 (50 + c5_dt)
    0 0 1 0 c7_t0 initialFields ⟨hb.1, hb.2.1, by rw [c7_nf]; norm_num⟩]
  rw [freqLoop_stop c7inp 0 0 0 c_mt 1 1 c7_fl0 c7_fr0 5 (5 - c5_dt / 10) 50 (50 + c5_dt)
    0 0 0 (0 + 1) _ _ (by intro hcon; rw [c7_nf] at hcon; omega)]
  rw [crossWrite, if_pos (show crossNewz c7_t0 c7_fl0 c7_fr0 5 (5 - c5_dt / 10) > 0 from
    c7_newz_pos)]
  show set4 initialFields.rf 0 0 0 0 (some c7_newz) 0 0 0 0 = some c7_newz
  rw [set4, if_pos ⟨by norm_num, by norm_num, by norm_num, by norm_num⟩]

/-- C7 counterexample: in the concrete run `c7inp` (two redshift bins with
strongly non-monotonic GMT), (i) `fobs_left` *decreases* from the first-processed
(highest-redshift) bin to the next bin, contradicting the claimed monotonicity;
(ii) the Mapper breaks at the first bin and leaves everything sentinel, yet
(iii) processing the remaining lower-redshift bin from the break-time state
*would* have recorded a crossing. -/
theorem C7_counterexample :
    fobsLeftFn c7inp 0 (timeLeftFn c7inp 0 0 0 (0 + c5_dt) c5_dt)
        (kepler_freq_from_sepa c_mt 10) <
      fobsLeftFn c7inp 0 (timeLeftFn c7inp 0 0 1 (0 + c5_dt) c5_dt)
        (kepler_freq_from_sepa c_mt 10) ∧
    (dynamic_binary_number_at_fobs c7inp).rf 0 0 0 0 = none ∧
    ((processKK c7inp 0 0 c_mt 1 1 c5_dt (0 + c5_dt) (kepler_freq_from_sepa c_mt 10)
      (kepler_freq_from_sepa c_mt 1) 0 ⟨0, 0, initialFields⟩).1).flds.rf 0 0 0 0 =
      some c7_newz := by
  refine ⟨?_, c7_run_rf, ?_⟩
  · rw [c7_tl0, c7_tl1, c7_fobsLeft50, c7_fobsLeft90]
    exact c7_freq_bounds.2.2.1
  · rw [c7_go0]
    show (processKKgo c7inp 0 0 0 c_mt 1 1 (kepler_freq_from_sepa c_mt 10)
      (kepler_freq_from_sepa c_mt 1) 50 (50 + c5_dt) ⟨0, 0, initialFields⟩).flds.rf 0 0 0 0 =
      some c7_newz
    rw [c7_go0_eval]
    exact c7_freq_eval

/-- C7 amended: once `fobs_left` exceeds the highest target frequency edge at
some redshift bin, the Mapper stops iterating redshift bins for that
(mass, ratio, step) entirely — the bin body signals `break` and the loop returns
at once, leaving the fields unchanged.  (The claimed justification — that
`fobs_left` never decreases toward lower bins so no remaining bin could record a
crossing — does not hold in general, because the per-bin offset `gmt + redz_age`
need not be monotonic in the bin index; see the counterexample.) -/
theorem C7_amended_break (inp : MapInputs) (i j : ℕ) (mt mr norm dt te fl fr : ℝ)
    (k : ℕ) (acc : KAcc)
    (h1 : ¬ timeLeftFn inp i j k te dt > age_universe inp)
    (h2 : fobsLeftFn inp acc.interp_left (timeLeftFn inp i j k te dt) fl >
      inp.target ((inp.nf : ℤ) - 1)) :
    kkLoop inp i j mt mr norm dt te fl fr k acc =
      ⟨interpLeftIdx inp acc.interp_left (timeLeftFn inp i j k te dt), acc.fidx, acc.flds⟩ :=
  kkLoop_of_true inp i j mt mr norm dt te fl fr k acc _
    (processKK_break inp i j mt mr norm dt te fl fr k acc h1 h2)

/-- Witness for the amended C7 at the concrete break of the `c7inp` run. -/
theorem C7_witness :
    (¬ timeLeftFn c7inp 0 0 1 (0 + c5_dt) c5_dt > age_universe c7inp) ∧
    (fobsLeftFn c7inp 0 (timeLeftFn c7inp 0 0 1 (0 + c5_dt) c5_dt)
      (kepler_freq_from_sepa c_mt 10) > c7inp.target ((c7inp.nf : ℤ) - 1)) ∧
    kkLoop c7inp 0 0 c_mt 1 1 c5_dt (0 + c5_dt) (kepler_freq_from_sepa c_mt 10)
        (kepler_freq_from_sepa c_mt 1) 1 ⟨0, 0, initialFields⟩ =
      ⟨interpLeftIdx c7inp 0 (timeLeftFn c7inp 0 0 1 (0 + c5_dt) c5_dt), 0,
        initialFields⟩ := by
  have h1 : ¬ timeLeftFn c7inp 0 0 1 (0 + c5_dt) c5_dt > age_universe c7inp := by
    rw [c7_tl1, c7_age]
    norm_num [c7T]
  have h2 : fobsLeftFn c7inp (0 : ℕ) (timeLeftFn c7inp 0 0 1 (0 + c5_dt) c5_dt)
      (kepler_freq_from_sepa c_mt 10) > c7inp.target ((c7inp.nf : ℤ) - 1) := by
    rw [c7_tl1, c7_fobsLeft90, c7_target]
    exact c7_freq_bounds.2.2.2
  exact ⟨h1, h2, C7_amended_break c7inp 0 0 c_mt 1 1 c5_dt (0 + c5_dt)
    (kepler_freq_from_sepa c_mt 10) (kepler_freq_from_sepa c_mt 1) 1
    ⟨0, 0, initialFields⟩ h1 h2⟩

lemma c7_run_dn : (dynamic_binary_number_at_fobs c7inp).dn 0 0 0 0 = some 0 := by
  rw [c7_stageB, c7_break]
  rfl

/-- C4 counterexample: `diff_num` is *not* initialized to the not-a-number
sentinel — line 237 of the source initializes it with `np.zeros` — so on a
nonempty input whose pass performs no writes (here `c7inp`: its first-processed
redshift bin has `fobs_left` above the highest target edge, so the pass breaks
before writing anything) the in-range `redz_final` cell (0,0,0,0) holds the
sentinel while the `diff_num` cell holds the number 0.0, and the claimed
"sentinel iff sentinel" equivalence between the two fields fails. -/
theorem C4_counterexample :
    (dynamic_binary_number_at_fobs c7inp).rf 0 0 0 0 = none ∧
    (dynamic_binary_number_at_fobs c7inp).dn 0 0 0 0 = some 0 ∧
    ¬ (((dynamic_binary_number_at_fobs c7inp).dn 0 0 0 0 = none) ↔
       ((dynamic_binary_number_at_fobs c7inp).rf 0 0 0 0 = none)) := by
  refine ⟨c7_run_rf, c7_run_dn, ?_⟩
  intro h
  have h2 := h.mpr c7_run_rf
  rw [c7_run_dn] at h2
  exact Option.noConfusion h2

/-- Witness for the amended C4 at the concrete nonempty input `c7inp` and its
in-range cell (0,0,0,0), discharging the sentinel hypothesis there. -/
theorem C4_witness :
    (dynamic_binary_number_at_fobs c7inp).rf 0 0 0 0 = none ∧
    (dynamic_binary_number_at_fobs c7inp).dn 0 0 0 0 = some 0 :=
  ⟨c7_run_rf, (C4_amended_sentinel_invariant c7inp).2.2.2 0 0 0 0 c7_run_rf⟩

/-! ### C3: the right-edge interpolation index (lines 361-368) -/

/-- Spec-following (for comparison with the code): the knot index whose segment
brackets `x` in the sorted table `xs` with `n` knots — the last index
`i < n - 1` with `xs[i] <= x`. -/
def specSegIdx (xs : ℤ → ℝ) (n : ℕ) (x : ℝ) : ℕ :=
  (List.range (n - 1)).foldl (fun (acc i : ℕ) => if xs (i : ℤ) ≤ x then i else acc) 0

/-- Spec-following: the piecewise-linear interpolant of the table `(xs, ys)`
with `n` knots, evaluated at `x` on the segment that brackets `x`. -/
def pwlInterp (xs ys : ℤ → ℝ) (n : ℕ) (x : ℝ) : ℝ :=
  interp_at_index (specSegIdx xs n x) x xs ys

/-- Concrete mapper input exercising only the cosmology-table interpolation:
age grid `tage = [0, 10, 20]`, redshift grid `rig = [2, 1, 9/10]`. -/
def c3inp : MapInputs :=
  ⟨0, 0, 0, 0, 3, fun _ => 0, fun _ _ => 0, 0, 0, 0, fun _ _ _ => 0, fun _ => 0,
    fun _ => 0, fun _ => 0, fun _ _ _ => 0, 0, 0,
    fun t => if t = 0 then 2 else if t = 1 then 1 else 9 / 10,
    fun _ => 0,
    fun t => if t = 0 then 0 else if t = 1 then 10 else 20⟩

lemma c3_ninterp : c3inp.ninterp = 3 := rfl

lemma c3_tage0 : c3inp.tage 0 = 0 := by norm_num [c3inp]

lemma c3_tage1 : c3inp.tage 1 = 10 := by norm_num [c3inp]

lemma c3_tage2 : c3inp.tage 2 = 20 := by norm_num [c3inp]

lemma c3_rig0 : c3inp.rig 0 = 2 := by norm_num [c3inp]

lemma c3_rig1 : c3inp.rig 1 = 1 := by norm_num [c3inp]

lemma c3_rig2 : c3inp.rig 2 = 9 / 10 := by norm_num [c3inp]

lemma c3_ww5 : while_while 0 3 5 c3inp.tage = 0 := by
  rw [while_while]
  have hup : while_up c3inp.tage 3 5 3 0 = 0 := by
    rw [while_up, if_neg]
    intro hcon
    have h2 := hcon.2
    rw [show ((0 : ℕ) : ℤ) + 1 = 1 by norm_num, c3_tage1] at h2
    norm_num at h2
  rw [hup, while_down, if_neg]
  intro hcon
  exact absurd hcon.1 (by norm_num)

lemma c3_interpLeft5 : interpLeftIdx c3inp 0 5 = 0 := by
  rw [interpLeftIdx, c3_ninterp]
  exact c3_ww5

lemma c3_interpRight5 : interpRightIdx c3inp 0 5 = 0 := by
  rw [interpRightIdx, c3_interpLeft5, c3_ninterp]
  exact c3_ww5

lemma c3_redzRight : redzRightFn c3inp 0 5 15 = 1 / 2 := by
  rw [redzRightFn, c3_interpRight5, interp_at_index]
  norm_num [c3_rig0, c3_rig1, c3_tage0, c3_tage1]

lemma c3_specIdx : specSegIdx c3inp.tage 3 15 = 1 := by
  rw [specSegIdx]
  norm_num [List.range_succ, c3_tage0, c3_tage1]

lemma c3_pwl15 : pwlInterp c3inp.tage c3inp.rig 3 15 = 19 / 20 := by
  rw [pwlInterp, c3_specIdx, interp_at_index]
  norm_num [c3_tage1, c3_tage2, c3_rig1, c3_rig2]

/-- C3: the right-edge redshift is *not* the piecewise-linear interpolant of the
(age → redshift) table at `time_right`, because line 365 of the source searches
the age grid for `time_left` (not `time_right`) when locating the right-edge
index.  On the age grid `[0, 10, 20]` with redshift knots `[2, 1, 9/10]`,
`time_left = 5`, `time_right = 15`: the code's right-edge index is 0, whose
segment `[0, 10]` does not bracket 15; the code extrapolates `redz_right = 1/2`,
while the interpolant of the table at 15 is `19/20`. -/
theorem C3_code_divergence :
    interpRightIdx c3inp 0 5 = 0 ∧
    ¬ (c3inp.tage ((interpRightIdx c3inp 0 5 : ℕ) : ℤ) ≤ 15 ∧
       15 ≤ c3inp.tage (((interpRightIdx c3inp 0 5 : ℕ) : ℤ) + 1)) ∧
    redzRightFn c3inp 0 5 15 = 1 / 2 ∧
    pwlInterp c3inp.tage c3inp.rig c3inp.ninterp 15 = 19 / 20 ∧
    (1 : ℝ) / 2 ≠ 19 / 20 := by
  refine ⟨c3_interpRight5, ?_, c3_redzRight, ?_, by norm_num⟩
  · rw [c3_interpRight5]
    intro hcon
    have h2 := hcon.2
    rw [show (((0 : ℕ) : ℤ)) + 1 = 1 by norm_num, c3_tage1] at h2
    norm_num at h2
  · rw [c3_ninterp]
    exact c3_pwl15
